import Mathlib

/-!
# E-commerce demo: client-side state engine

A shallow embedding of the storage-backed part of the single-page shop
(`src/js/utils.js`, `auth.js`, `products.js`, `cart.js`, `wishlist.js`,
`orders.js`, `search.js`, `app.js`) and of the login of the legacy module
`src/assets/js/auth.js`.

Modelling conventions.

* The browser's local storage is the record `Store`: one field per top-level
  key, holding the value that `Utils.Storage.get` parses back.  A missing key
  and the stored default are identified (`users`, `products`, `orders` default
  to the empty array; `cart`, `wishlist` and `comments` to the empty object;
  `currentUser` to `null`, written `none`).  Writes are assumed to succeed.
  The helper `Utils.Storage` itself is modelled on the stored text, with the
  browser's `JSON` functions and the success of a write as inputs.
* JavaScript strings are Lean strings; `length` counts UTF-16 code units
  (`jsLength`).  JavaScript numbers are exact: quantities are integers, prices
  are rationals.  The one quotient the code takes, that of the average rating,
  is rounded to a double (`divDouble`), and `toFixed(1)` returns a string.
* The values `Utils.generateId` and `new Date()` return are inputs of the
  operation that uses them.
* `Array.prototype.sort` is the stable sort by the comparison function, and the
  stats of a product are a function of its id.  `Math.log`, the product of two
  doubles, the conversion of a string to a number and
  `String.prototype.toLowerCase` are inputs of the functions that call them.
* DOM effects (modals, badges, re-rendering) are not part of the state.  The
  toast an operation shows last is recorded in its `Outcome`.
-/

set_option autoImplicit false

namespace Ecommerce

/-! ## Data model -/

/-- A record of the `users` collection, as `Auth.register` builds it. -/
structure User where
  id : String
  name : String
  email : String
  password : String
  role : String
  createdAt : String
deriving DecidableEq, Repr

/-- A stored object all of whose fields are strings: the fields in insertion
order.  `currentUser` holds one. -/
abbrev JObj := List (String × String)

/-- Property read `o[k]` on an object held as a field list; `none` is
`undefined`. -/
def jsGet {β : Type} (o : List (String × β)) (k : String) : Option β :=
  match o with
  | [] => none
  | (k1, v) :: rest => if k1 = k then some v else jsGet rest k

/-- Property write `o[k] = v`: an existing field is overwritten in place, a
new one is added last. -/
def jsSet {β : Type} (o : List (String × β)) (k : String) (v : β) : List (String × β) :=
  match o with
  | [] => [(k, v)]
  | (k1, v1) :: rest => if k1 = k then (k, v) :: rest else (k1, v1) :: jsSet rest k v

/-- A value used as a property key: `undefined` becomes the key "undefined". -/
def jsKey (v : Option String) : String := v.getD "undefined"

/-- The `rating` field of a catalog product. -/
structure Rating where
  rate : Rat
  count : Nat
deriving DecidableEq, Repr

/-- A record of the `products` collection. -/
structure Product where
  id : Nat
  title : String
  price : Rat
  description : String
  category : String
  image : String
  brand : String
  tags : List String
  rating : Option Rating
deriving DecidableEq, Repr

/-- A line of a user's cart: the object literal of `Cart.addItem`. -/
structure CartLine where
  productId : Nat
  quantity : Int
deriving DecidableEq, Repr

/-- An entry of an order's `products` array. -/
structure OrderLine where
  productId : Nat
  title : String
  image : String
  quantity : Int
  price : Rat
deriving DecidableEq, Repr

/-- A record of the `orders` collection.  A field whose value was `undefined`
is dropped by serialisation and is `none` here. -/
structure Order where
  orderId : String
  userId : Option String
  userName : Option String
  userEmail : Option String
  products : List OrderLine
  totalAmount : Rat
  paymentMethod : String
  orderStatus : String
  estimatedDelivery : String
  createdAt : String
deriving DecidableEq, Repr

/-- A review of the `comments` mapping, as the review form builds it. -/
structure Review where
  id : Nat
  productId : Nat
  userId : Option String
  user : Option String
  rating : Int
  comment : String
  date : String
deriving DecidableEq, Repr

/-- The persisted state: one field per local-storage key.  The `comments`
mapping is keyed by product id, and `winterSaleActive` is the truth value of
the stored flag. -/
structure Store where
  users : List User
  currentUser : Option JObj
  products : List Product
  cart : List (String × List CartLine)
  wishlist : List (String × List Nat)
  orders : List Order
  comments : List (Nat × List Review)
  winterSaleActive : Bool
deriving DecidableEq, Repr

/-- The storage of a fresh browser profile. -/
def Store.empty : Store :=
  { users := [], currentUser := none, products := [], cart := [], wishlist := [], orders := [],
    comments := [], winterSaleActive := false }

/-- The arguments of `Utils.showToast`. -/
structure Toast where
  message : String
  kind : String
deriving DecidableEq, Repr

/-- What a call leaves behind: the returned value, the toast shown last (if
any) and the storage afterwards. -/
structure Outcome (α : Type) where
  ret : α
  toast : Option Toast
  store : Store

/-! ## utils.js -/

namespace Utils

/-- Number of UTF-16 code units of a character. -/
def utf16Units (c : Char) : Nat := if c.val.toNat < 0x10000 then 1 else 2

/-- The `length` property of a string: its number of UTF-16 code units. -/
def jsLength (s : String) : Nat := (s.toList.map utf16Units).sum

/-- The characters the regular-expression class `\s` matches. -/
def isJsSpace (c : Char) : Bool :=
  let n := c.val.toNat
  (9 ≤ n && n ≤ 13) || n == 0x20 || n == 0xA0 || n == 0x1680 ||
  (0x2000 ≤ n && n ≤ 0x200A) || n == 0x2028 || n == 0x2029 || n == 0x202F ||
  n == 0x205F || n == 0x3000 || n == 0xFEFF

/-- The class `[^\s@]` of the e-mail pattern. -/
def emailChar (c : Char) : Bool := !isJsSpace c && c != '@'

/-- Does `cs` match `[^\s@]+\.[^\s@]+` in full: all characters in the class,
and a dot that is neither the first nor the last character. -/
def matchDomain (cs : List Char) : Bool :=
  cs.all emailChar && ((cs.drop 1).dropLast).contains '.'

/-- `isValidEmail`: test against `/^[^\s@]+@[^\s@]+\.[^\s@]+$/`.  The first
segment cannot contain `@`, so it ends at the first `@` of the input. -/
def isValidEmail (email : String) : Bool :=
  let cs := email.toList
  let front := cs.takeWhile (fun c => c != '@')
  match cs.dropWhile (fun c => c != '@') with
  | [] => false
  | _ :: domain => !front.isEmpty && front.all emailChar && matchDomain domain

/-- `isValidPassword`, as a truth value: `password && password.length >= 6`. -/
def isValidPassword (password : String) : Bool :=
  password != "" && decide (6 ≤ jsLength password)

end Utils

/-! ## auth.js -/

namespace Auth

/-- The hardcoded admin e-mail. -/
def ADMIN_EMAIL : String := "admin@gmail.com"

/-- The hardcoded admin password. -/
def ADMIN_PASSWORD : String := "Admin@123"

/-- `Auth.isLoggedIn`: the value stored under `currentUser` is not `null`. -/
def isLoggedIn (s : Store) : Bool := s.currentUser.isSome

/-- `Auth.getCurrentUser`. -/
def getCurrentUser (s : Store) : Option JObj := s.currentUser

/-- `Auth.isAdmin`, as a truth value: `user && user.role === 'admin'`. -/
def isAdmin (s : Store) : Bool :=
  match getCurrentUser s with
  | none => false
  | some user => decide (jsGet user "role" = some "admin")

/-- `Auth.setCurrentUser`. -/
def setCurrentUser (user : JObj) (s : Store) : Store :=
  { s with currentUser := some user }

/-- `Auth.register`.  `newId` is what `Utils.generateId` returns and
`createdAt` the time stamp of the call. -/
def register (newId createdAt : String) (name email password : String)
    (s : Store) : Outcome Bool :=
  if name = "" ∨ email = "" ∨ password = "" then
    ⟨false, some ⟨"All fields are required", "error"⟩, s⟩
  else if !Utils.isValidEmail email then
    ⟨false, some ⟨"Invalid email address", "error"⟩, s⟩
  else if !Utils.isValidPassword password then
    ⟨false, some ⟨"Password must be at least 6 characters", "error"⟩, s⟩
  else
    let users := s.users
    match users.find? (fun u => decide (u.email = email)) with
    | some _ => ⟨false, some ⟨"Email already registered", "error"⟩, s⟩
    | none =>
      let newUser : User :=
        { id := newId, name := name, email := email, password := password,
          role := "user", createdAt := createdAt }
      let s1 : Store := { s with users := users ++ [newUser] }
      let s2 := setCurrentUser
        [("id", newUser.id), ("email", newUser.email), ("name", newUser.name),
         ("role", newUser.role)] s1
      ⟨true, some ⟨"Registration successful!", "success"⟩, s2⟩

/-- `Auth.login`. -/
def login (email password : String) (s : Store) : Outcome Bool :=
  if email = "" ∨ password = "" then
    ⟨false, some ⟨"Email and password are required", "error"⟩, s⟩
  else if email = ADMIN_EMAIL ∧ password = ADMIN_PASSWORD then
    ⟨true, some ⟨"Welcome, Admin!", "success"⟩,
      setCurrentUser
        [("id", "admin"), ("email", ADMIN_EMAIL), ("name", "Administrator"),
         ("role", "admin")] s⟩
  else
    let users := s.users
    match users.find? (fun u => decide (u.email = email)) with
    | none => ⟨false, some ⟨"User not found", "error"⟩, s⟩
    | some user =>
      if user.password ≠ password then
        ⟨false, some ⟨"Wrong password", "error"⟩, s⟩
      else
        ⟨true, some ⟨"Welcome back, " ++ user.name ++ "!", "success"⟩,
          setCurrentUser
            [("id", user.id), ("email", user.email), ("name", user.name),
             ("role", user.role)] s⟩

/-- `Auth.canAccessRoute`, as a truth value. -/
def canAccessRoute (route : String) (s : Store) : Bool :=
  let publicRoutes := ["/", "/products", "/categories", "/sale", "/brands"]
  if publicRoutes.contains route then true
  else
    let userRoutes := ["/cart", "/checkout", "/orders", "/wishlist", "/settings"]
    if userRoutes.contains route then isLoggedIn s
    else
      let adminRoutes := ["/admin", "/winter-sale"]
      if adminRoutes.contains route then isAdmin s
      else true

/-- `Auth.requireLogin` without a callback: `false` (and the login modal) when
nobody is logged in. -/
def requireLogin (s : Store) : Bool :=
  if !isLoggedIn s then false else true

end Auth

/-! ## products.js -/

namespace Products

/-- `Products.getProductById`: the first catalog product whose id is `id`. -/
def getProductById (s : Store) (id : Nat) : Option Product :=
  s.products.find? (fun p => p.id == id)

end Products

/-! ## cart.js -/

/-- Apply `f` to the first element satisfying `p`: the effect of mutating the
object that `Array.prototype.find` returned. -/
def updateFirst {α : Type} (p : α → Bool) (f : α → α) : List α → List α
  | [] => []
  | x :: xs => if p x then f x :: xs else x :: updateFirst p f xs

namespace Cart

/-- `Cart.getUserCart`. -/
def getUserCart (s : Store) : List CartLine :=
  match Auth.getCurrentUser s with
  | none => []
  | some user => (jsGet s.cart (jsKey (jsGet user "id"))).getD []

/-- `Cart.saveUserCart`. -/
def saveUserCart (cartItems : List CartLine) (s : Store) : Outcome Bool :=
  match Auth.getCurrentUser s with
  | none => ⟨false, none, s⟩
  | some user =>
    ⟨true, none, { s with cart := jsSet s.cart (jsKey (jsGet user "id")) cartItems }⟩

/-- `Cart.addItem`.  A call that omits `quantity` passes the default 1. -/
def addItem (productId : Nat) (quantity : Int) (s : Store) : Outcome Unit :=
  if !Auth.requireLogin s then ⟨(), none, s⟩
  else
    match Products.getProductById s productId with
    | none => ⟨(), some ⟨"Product not found", "error"⟩, s⟩
    | some _ =>
      let cartItems := getUserCart s
      let updated :=
        match cartItems.find? (fun item => item.productId == productId) with
        | some _ =>
          updateFirst (fun item => item.productId == productId)
            (fun item => { item with quantity := item.quantity + quantity }) cartItems
        | none => cartItems ++ [{ productId := productId, quantity := quantity }]
      ⟨(), some ⟨"Added to cart", "success"⟩, (saveUserCart updated s).store⟩

/-- `Cart.removeItem`. -/
def removeItem (productId : Nat) (s : Store) : Outcome Unit :=
  let cartItems := getUserCart s
  let filtered := cartItems.filter (fun item => item.productId != productId)
  ⟨(), some ⟨"Removed from cart", "success"⟩, (saveUserCart filtered s).store⟩

/-- `Cart.updateQuantity`. -/
def updateQuantity (productId : Nat) (quantity : Int) (s : Store) : Outcome Unit :=
  if quantity < 1 then removeItem productId s
  else
    let cartItems := getUserCart s
    match cartItems.find? (fun item => item.productId == productId) with
    | some _ =>
      let updated := updateFirst (fun item => item.productId == productId)
        (fun item => { item with quantity := quantity }) cartItems
      ⟨(), none, (saveUserCart updated s).store⟩
    | none => ⟨(), none, s⟩

/-- `Cart.calculateTotal`: the running total over the cart lines, a line whose
product is missing from the catalog adding nothing. -/
def calculateTotal (s : Store) : Rat :=
  (getUserCart s).foldl
    (fun total item =>
      match Products.getProductById s item.productId with
      | some product => total + product.price * (item.quantity : Rat)
      | none => total)
    0

/-- What `calculateTotal` adds to the total for one line: catalog price times
quantity, nothing when the product is not in the catalog. -/
def lineAmount (s : Store) (item : CartLine) : Rat :=
  match Products.getProductById s item.productId with
  | some product => product.price * (item.quantity : Rat)
  | none => 0

/-- `Cart.clearCart`. -/
def clearCart (s : Store) : Outcome Unit :=
  ⟨(), none, (saveUserCart [] s).store⟩

end Cart

/-! ## orders.js -/

/-- The argument of `Orders.createOrder`, as the checkout form builds it. -/
structure OrderData where
  address : String
  paymentMethod : String

/-- How a call of `Orders.createOrder` ends. -/
inductive OrderResult where
  /-- The call returns the new order. -/
  | created (order : Order)
  /-- The call returns `false`. -/
  | refused
  /-- The call throws on reading a field of a product that is `undefined`. -/
  | typeError
deriving DecidableEq, Repr

namespace Orders

/-- The `products` array of a new order: one entry per cart line, copied from
the catalog; `none` when a line's product is not in the catalog (the callback
of `map` then throws). -/
def orderLines (s : Store) : List CartLine → Option (List OrderLine)
  | [] => some []
  | item :: rest =>
    match Products.getProductById s item.productId with
    | none => none
    | some product =>
      match orderLines s rest with
      | none => none
      | some lines =>
        some ({ productId := item.productId, title := product.title,
                image := product.image, quantity := item.quantity,
                price := product.price } :: lines)

/-- `Orders.createOrder`.  `orderId` is what `Utils.generateId` returns;
`estimatedDelivery` and `createdAt` are the two time stamps of the call. -/
def createOrder (orderId estimatedDelivery createdAt : String) (orderData : OrderData)
    (s : Store) : Outcome OrderResult :=
  match Auth.getCurrentUser s with
  | none => ⟨.refused, some ⟨"Please login to place an order", "error"⟩, s⟩
  | some user =>
    let cartItems := Cart.getUserCart s
    if cartItems.length = 0 then
      ⟨.refused, some ⟨"Your cart is empty", "error"⟩, s⟩
    else
      match orderLines s cartItems with
      | none => ⟨.typeError, none, s⟩
      | some products =>
        let totalPrice := Cart.calculateTotal s
        let newOrder : Order :=
          { orderId := orderId, userId := jsGet user "id", userName := jsGet user "name",
            userEmail := jsGet user "email", products := products,
            totalAmount := totalPrice, paymentMethod := orderData.paymentMethod,
            orderStatus := "pending", estimatedDelivery := estimatedDelivery,
            createdAt := createdAt }
        let s1 : Store := { s with orders := newOrder :: s.orders }
        let s2 := (Cart.clearCart s1).store
        ⟨.created newOrder, some ⟨"Order placed successfully!", "success"⟩, s2⟩

/-- `Orders.getAllOrders`. -/
def getAllOrders (s : Store) : List Order := s.orders

/-- `Orders.getUserOrders`. -/
def getUserOrders (s : Store) : List Order :=
  match Auth.getCurrentUser s with
  | none => []
  | some user => (getAllOrders s).filter (fun order => decide (order.userId = jsGet user "id"))

/-- `Orders.getOrderById`: the first stored order with that id; `none` is
`undefined`. -/
def getOrderById (s : Store) (orderId : String) : Option Order :=
  (getAllOrders s).find? (fun order => decide (order.orderId = orderId))

/-- `Orders.cancelOrder`. -/
def cancelOrder (orderId : String) (s : Store) : Outcome Bool :=
  match Auth.getCurrentUser s with
  | none => ⟨false, none, s⟩
  | some user =>
    let orders := getAllOrders s
    match orders.find? (fun o => decide (o.orderId = orderId)) with
    | none => ⟨false, some ⟨"Order not found", "error"⟩, s⟩
    | some order =>
      if order.userId ≠ jsGet user "id" then
        ⟨false, some ⟨"Unauthorized", "error"⟩, s⟩
      else if order.orderStatus = "delivered" ∨ order.orderStatus = "cancelled" then
        ⟨false, some ⟨"Cannot cancel this order", "error"⟩, s⟩
      else
        let updated := updateFirst (fun o => decide (o.orderId = orderId))
          (fun o => { o with orderStatus := "cancelled" }) orders
        ⟨true, some ⟨"Order cancelled", "success"⟩, { s with orders := updated }⟩

/-- `Orders.updateOrderStatus`. -/
def updateOrderStatus (orderId status : String) (s : Store) : Outcome Bool :=
  if !Auth.isAdmin s then
    ⟨false, some ⟨"Admin access required", "error"⟩, s⟩
  else
    let orders := getAllOrders s
    match orders.find? (fun o => decide (o.orderId = orderId)) with
    | none => ⟨false, some ⟨"Order not found", "error"⟩, s⟩
    | some _ =>
      let updated := updateFirst (fun o => decide (o.orderId = orderId))
        (fun o => { o with orderStatus := status }) orders
      ⟨true, some ⟨"Order status updated", "success"⟩, { s with orders := updated }⟩

end Orders

/-! ## wishlist.js -/

namespace Wishlist

/-- `Wishlist.getUserWishlist`. -/
def getUserWishlist (s : Store) : List Nat :=
  match Auth.getCurrentUser s with
  | none => []
  | some user => (jsGet s.wishlist (jsKey (jsGet user "id"))).getD []

/-- `Wishlist.saveUserWishlist`. -/
def saveUserWishlist (items : List Nat) (s : Store) : Outcome Bool :=
  match Auth.getCurrentUser s with
  | none => ⟨false, none, s⟩
  | some user =>
    ⟨true, none, { s with wishlist := jsSet s.wishlist (jsKey (jsGet user "id")) items }⟩

/-- `Wishlist.add`. -/
def add (productId : Nat) (s : Store) : Outcome Unit :=
  if !Auth.requireLogin s then ⟨(), none, s⟩
  else
    let items := getUserWishlist s
    if !items.contains productId then
      ⟨(), some ⟨"Added to wishlist", "success"⟩,
        (saveUserWishlist (items ++ [productId]) s).store⟩
    else ⟨(), none, s⟩

/-- `Wishlist.remove`. -/
def remove (productId : Nat) (s : Store) : Outcome Unit :=
  let items := getUserWishlist s
  let filtered := items.filter (fun id => id != productId)
  ⟨(), some ⟨"Removed from wishlist", "success"⟩, (saveUserWishlist filtered s).store⟩

/-- `Wishlist.toggle`. -/
def toggle (productId : Nat) (s : Store) : Outcome Unit :=
  if !Auth.requireLogin s then ⟨(), none, s⟩
  else
    let items := getUserWishlist s
    if items.contains productId then remove productId s
    else add productId s

end Wishlist

/-! ## products.js: sorting -/

/-- `Array.prototype.sort` with a comparison function: the element `a` goes
before `b` when `compareFn a b` is negative, after it when positive, and
elements that compare equal keep their order (the sort is stable).  For the
consistent comparison functions of `sortProducts` the result does not depend on
the sorting algorithm; it is computed here by insertion. -/
def arraySort {α : Type} (compareFn : α → α → Rat) (l : List α) : List α :=
  l.insertionSort (fun a b => compareFn a b ≤ 0)

/-- The stats of a product as the sort reads them: its comparisons `>=` and `-`
take the rating and the score as numbers. -/
structure ProductStats where
  rating : Rat
  count : Nat
  score : Rat

namespace Products

/-- The threshold `stats.rating >= 4.5 && stats.count >= 2` of the default sort. -/
def isTopRated (stats : ProductStats) : Bool :=
  decide (stats.rating ≥ 4.5) && decide (stats.count ≥ 2)

/-- The comparison function of the default sort.  `getProductStats` is the
function from product id to stats that `Products.getProductStats` computes. -/
def defaultCompare (getProductStats : Nat → ProductStats) (a b : Product) : Rat :=
  let statsA := getProductStats a.id
  let statsB := getProductStats b.id
  let isTopA := isTopRated statsA
  let isTopB := isTopRated statsB
  if isTopA && !isTopB then -1
  else if !isTopA && isTopB then 1
  else if a.tags.contains "new" && !b.tags.contains "new" then -1
  else if !a.tags.contains "new" && b.tags.contains "new" then 1
  else statsB.score - statsA.score

/-- `Products.sortProducts`.  `getProductStats` stands for
`Products.getProductStats` and `localeCompare` for
`String.prototype.localeCompare`. -/
def sortProducts (getProductStats : Nat → ProductStats)
    (localeCompare : String → String → Rat) (products : List Product)
    (sortBy : String) : List Product :=
  let getScore := fun (p : Product) => (getProductStats p.id).score
  if sortBy = "price-low" then arraySort (fun a b => a.price - b.price) products
  else if sortBy = "price-high" then arraySort (fun a b => b.price - a.price) products
  else if sortBy = "rating" then arraySort (fun a b => getScore b - getScore a) products
  else if sortBy = "newest" then arraySort (fun a b => (b.id : Rat) - (a.id : Rat)) products
  else if sortBy = "name" then arraySort (fun a b => localeCompare a.title b.title) products
  else arraySort (defaultCompare getProductStats) products

end Products

/-! ## The order-status invariant -/

/-- Every stored order has one of the four statuses. -/
def orderStatusesOk (s : Store) : Bool :=
  s.orders.all (fun order =>
    ["pending", "processing", "delivered", "cancelled"].contains order.orderStatus)

/-! ## The cart invariant -/

/-- Every cart line held in storage, of whichever user, has quantity at least 1. -/
def cartQuantitiesOk (s : Store) : Bool :=
  s.cart.all (fun entry => entry.2.all (fun line => decide (1 ≤ line.quantity)))

/-! ## utils.js: the storage helper -/

/-- The browser's `JSON` object on values of type `V`: `stringify` gives the
JSON text of a value; `parse` gives the value of a text, `none` when it throws
a `SyntaxError`. -/
structure Json (V : Type) where
  stringify : V → String
  parse : String → Option V

/-- The browser's local storage: the text stored under each key. -/
abbrev LocalStorage := List (String × String)

namespace Utils.Storage

/-- `Storage.get`.  `getItem` returns `null` for a key that is not stored;
`item ? ... : defaultValue` also takes the default for the empty text; an
exception of `JSON.parse` is caught and the default returned. -/
def get {V : Type} (json : Json V) (localStorage : LocalStorage) (key : String)
    (defaultValue : V) : V :=
  match jsGet localStorage key with
  | none => defaultValue
  | some item =>
    if item = "" then defaultValue
    else
      match json.parse item with
      | some value => value
      | none => defaultValue

/-- `Storage.set`: the returned truth value and the storage afterwards.
`writeOk` tells whether `localStorage.setItem` succeeds; when it throws (the
quota is exceeded), the exception is caught, nothing is stored and `false` is
returned. -/
def set {V : Type} (json : Json V) (writeOk : Bool) (localStorage : LocalStorage)
    (key : String) (value : V) : Bool × LocalStorage :=
  if writeOk then (true, jsSet localStorage key (json.stringify value))
  else (false, localStorage)

end Utils.Storage

/-! ## utils.js and products.js: ratings -/

/-- A value that is a number or a string.  A number is given by its exact
value. -/
inductive JsValue where
  | number (x : Rat)
  | string (text : String)
deriving DecidableEq, Repr

/-- The built-in operations on numbers that the product stats use and that are
given rather than computed: `Math.log`, the product of two doubles, and the
conversion of a string to a number. -/
structure NumberOps where
  log : Rat → Rat
  mul : Rat → Rat → Rat
  toNumber : String → Rat

/-- The conversion to a number that `*` applies to its operand. -/
def NumberOps.ofValue (ops : NumberOps) : JsValue → Rat
  | .number x => x
  | .string text => ops.toNumber text

namespace Utils

/-- The largest `k` with `2 ^ k ≤ n` (0 for `n = 0`), found in at most `fuel`
halvings; `fuel = n` is enough for every `n`. -/
def log2Floor : Nat → Nat → Nat
  | 0, _ => 0
  | fuel + 1, n => if 2 ≤ n then log2Floor fuel (n / 2) + 1 else 0

/-- The operator `/` on an integer `a` and a positive integer `b`, both
doubles: the double nearest to the exact quotient, that is, the quotient
rounded to 53 significant bits, to the even significand when it lies half-way.
With `2 ^ e ≤ |a| / b < 2 ^ (e + 1)` the significand `m` is `|a| / b * 2 ^ (52 - e)`
rounded to an integer and the result is `m * 2 ^ (e - 52)` with the sign of `a`.
The bounds of the exponent of a double are not modelled: quotients of integers
below `2 ^ 53` are far within them. -/
def divDouble (a : Int) (b : Nat) : Rat :=
  if a = 0 then 0
  else
    let n := a.natAbs
    let e0 : Int := (log2Floor n n : Int) - (log2Floor b b : Int)
    let e : Int := if b * 2 ^ e0.toNat ≤ n * 2 ^ (-e0).toNat then e0 else e0 - 1
    let shift : Int := 52 - e
    let num := n * 2 ^ shift.toNat
    let den := b * 2 ^ (-shift).toNat
    let q := num / den
    let r := num % den
    let m := if den < 2 * r ∨ (2 * r = den ∧ q % 2 = 1) then q + 1 else q
    mkRat (a.sign * ((m * 2 ^ (-shift).toNat : Nat) : Int)) (2 ^ shift.toNat)

/-- `Number.prototype.toFixed(1)` on the number with value `x`, for magnitudes
below `10 ^ 21`: with `n` the integer for which `n / 10` is nearest to the
magnitude of `x` (the larger one of two), which is the integer part of
`(20 * |num| + den) / (2 * den)`, the string is the sign `-` for `x < 0`, the
decimal digits of `n / 10`, a point, and the last digit of `n`. -/
def toFixed1 (x : Rat) : String :=
  let n : Nat := (20 * x.num.natAbs + x.den) / (2 * x.den)
  (if x < 0 then "-" else "") ++ toString (n / 10) ++ "." ++ toString (n % 10)

/-- `calculateAverageRating`: the number 0 for no reviews, else the string
that `toFixed(1)` returns for the quotient of the sum of the ratings by their
number.  The ratings are integers, whose sum is exact. -/
def calculateAverageRating (comments : List Review) : JsValue :=
  if comments.length = 0 then .number 0
  else
    let sum := comments.foldl (fun acc comment => acc + comment.rating) (0 : Int)
    .string (toFixed1 (divDouble sum comments.length))

/-- `String.prototype.trim`: white space removed from both ends. -/
def jsTrim (s : String) : String :=
  String.mk ((s.toList.dropWhile isJsSpace).reverse.dropWhile isJsSpace).reverse

/-- `String.prototype.includes`: `needle` occurs in `hay` as a substring. -/
def jsIncludes (hay needle : String) : Bool :=
  decide (needle.toList <:+: hay.toList)

end Utils

namespace Products

/-- `Products.getProducts`. -/
def getProducts (s : Store) : List Product := s.products

/-- The object `Products.getProductStats` returns: the rating is the string of
`calculateAverageRating` when the product has reviews and the catalog's number
otherwise. -/
structure StatsObject where
  rating : JsValue
  count : Nat
  score : Rat
deriving DecidableEq

/-- `Products.getProductStats`. -/
def getProductStats (ops : NumberOps) (s : Store) (productId : Nat) : StatsObject :=
  let productComments := (s.comments.lookup productId).getD []
  let product := getProductById s productId
  let apiRate : Rat :=
    match product with
    | some p => (match p.rating with | some r => r.rate | none => 0)
    | none => 0
  let apiCount : Nat :=
    match product with
    | some p => (match p.rating with | some r => r.count | none => 0)
    | none => 0
  if productComments.length > 0 then
    let avgRating := Utils.calculateAverageRating productComments
    let count := productComments.length
    let score := ops.mul (ops.mul (ops.ofValue avgRating) (ops.log ((count : Rat) + 1))) 2
    { rating := avgRating, count := count, score := score }
  else
    { rating := .number apiRate, count := apiCount,
      score := ops.mul apiRate (ops.log ((apiCount : Rat) + 10)) }

/-- The text `avgRating.toFixed(1)` that `Products.renderProductCard` shows
next to the stars, where `avgRating` is the rating of `getProductStats`: a
number has the method `toFixed`; a string has none, so on a string the call
throws a `TypeError` and no card is rendered. -/
def renderProductCardRating (ops : NumberOps) (s : Store) (product : Product) :
    Except String String :=
  let stats := getProductStats ops s product.id
  let avgRating := stats.rating
  match avgRating with
  | .number x => .ok (Utils.toFixed1 x)
  | .string _ => .error "TypeError: avgRating.toFixed is not a function"

/-- `Products.renderProductPrice`: the prices it passes to `Utils.formatPrice`,
in the order in which the markup shows them. -/
def renderProductPrice (s : Store) (product : Product) : List Rat :=
  let isWinterSaleActive := s.winterSaleActive
  let originalPrice := product.price
  let discountedPrice := originalPrice * 0.8
  if isWinterSaleActive then [originalPrice, discountedPrice] else [originalPrice]

/-- The argument of `Products.filterProducts`: the criteria that
`App.routes` copies from the query parameters when they are present. -/
structure FilterCriteria where
  category : Option String
  brand : Option String
  tag : Option String
  sort : Option String

/-- Modelled from the spec: `Products.filterProducts`, which `products.js` only
names in a comment (line 114) and calls from `renderProductsPage`; the spec
says "exact-match AND across optional category, brand, tag fields; no partial
matching". -/
def filterProducts (s : Store) (criteria : FilterCriteria) : List Product :=
  (getProducts s).filter (fun product =>
    (match criteria.category with
      | none => true
      | some category => decide (product.category = category)) &&
    (match criteria.brand with
      | none => true
      | some brand => decide (product.brand = brand)) &&
    (match criteria.tag with
      | none => true
      | some tag => product.tags.contains tag))

end Products

/-! ## search.js -/

namespace Search

/-- `Search.search`.  `toLowerCase` stands for `String.prototype.toLowerCase`. -/
def search (toLowerCase : String → String) (s : Store) (query : String) : List Product :=
  if query = "" ∨ Utils.jsTrim query = "" then []
  else
    let products := Products.getProducts s
    let lowerQuery := toLowerCase query
    products.filter (fun product =>
      if Utils.jsIncludes (toLowerCase product.title) lowerQuery then true
      else if product.brand != "" &&
          Utils.jsIncludes (toLowerCase product.brand) lowerQuery then true
      else if product.category != "" &&
          Utils.jsIncludes (toLowerCase product.category) lowerQuery then true
      else if product.description != "" &&
          Utils.jsIncludes (toLowerCase product.description) lowerQuery then true
      else false)

end Search

/-! ## app.js: the router -/

/-- The state of the router: `App.currentRoute`, `App.currentProductId`
(`none` while it is unset), the location hash, the keys of the route handlers
invoked so far (latest last) and whether the login modal has been shown. -/
structure AppState where
  currentRoute : String
  currentProductId : Option String
  locationHash : String
  handlerCalls : List String
  loginModalShown : Bool
deriving DecidableEq, Repr

/-- The characters before the first occurrence of `sep`. -/
def takeUntilSep (sep : List Char) : List Char → List Char
  | [] => []
  | c :: cs => if sep.isPrefixOf (c :: cs) then [] else c :: takeUntilSep sep cs

namespace App

/-- The keys of the table `App.routes`. -/
def routeKeys : List String :=
  ["/", "/products", "/categories", "/sale", "/winter-sale", "/brands", "/cart",
   "/checkout", "/orders", "/wishlist", "/settings", "/admin", "/product"]

/-- The route that access is checked for: `/product/<id>` is rewritten to
`/product`. -/
def actualRoute (route : String) : String :=
  if "/product/".toList.isPrefixOf route.toList then "/product" else route

/-- `App.navigate`.  For a route that starts with `/product/`, the product id
is `route.split('/product/')[1]`, the text between the leading separator and
its next occurrence.  Invoking a handler is recorded by its key; what it
renders is not modelled. -/
def navigate (route : String) (updateHash : Bool) (s : Store) (app : AppState) : AppState :=
  let app1 : AppState :=
    if "/product/".toList.isPrefixOf route.toList then
      { app with
        currentProductId :=
          some (String.mk (takeUntilSep "/product/".toList (route.toList.drop 9))) }
    else app
  if !Auth.canAccessRoute (actualRoute route) s then
    { app1 with loginModalShown := true }
  else if updateHash then
    { app1 with locationHash := route }
  else
    let handler := if routeKeys.contains (actualRoute route) then actualRoute route else "/"
    { app1 with handlerCalls := app1.handlerCalls ++ [handler], currentRoute := route }

end App

/-! ## assets/js/auth.js: the legacy authentication module -/

/-- What the legacy `login` returns. -/
structure LoginResult where
  success : Bool
  message : String
  user : Option JObj
deriving DecidableEq, Repr

namespace Legacy

/-- The object `{...user}`: a copy of all fields of a user record. -/
def spreadUser (user : User) : JObj :=
  [("id", user.id), ("email", user.email), ("password", user.password),
   ("name", user.name), ("role", user.role), ("createdAt", user.createdAt)]

/-- The legacy `login(email, password)`: the returned object and the storage
afterwards.  `toLowerCase` stands for `String.prototype.toLowerCase`. -/
def login (toLowerCase : String → String) (email password : String) (s : Store) :
    LoginResult × Store :=
  if email = "" ∨ password = "" then
    (⟨false, "Email and password are required", none⟩, s)
  else
    let users := s.users
    match users.find? (fun u => decide (u.email = toLowerCase email)) with
    | none => (⟨false, "User not found. Please register first.", none⟩, s)
    | some user =>
      if user.password ≠ password then
        (⟨false, "Invalid password", none⟩, s)
      else
        let adminEmails := ["admin@gmail.com"]
        if adminEmails.contains (toLowerCase user.email) then
          let userToLogin := jsSet (spreadUser user) "role" "admin"
          let users1 := updateFirst (fun u => decide (u.id = user.id))
            (fun u => { u with role := "admin" }) users
          (⟨true, "Login successful!", some userToLogin⟩,
            { s with users := users1, currentUser := some userToLogin })
        else
          let userToLogin := spreadUser user
          (⟨true, "Login successful!", some userToLogin⟩,
            { s with currentUser := some userToLogin })

end Legacy

/-! ## Sequences of authentication calls -/

/-- A call of `Auth.register` or of `Auth.login`, with its arguments. -/
inductive AuthCall where
  | register (newId createdAt name email password : String)
  | login (email password : String)
deriving DecidableEq, Repr

/-- The storage after a call. -/
def AuthCall.run (call : AuthCall) (s : Store) : Store :=
  match call with
  | .register newId createdAt name email password =>
    (Auth.register newId createdAt name email password s).store
  | .login email password => (Auth.login email password s).store

/-- The storage after a sequence of calls, made one after the other. -/
def runCalls (calls : List AuthCall) (s : Store) : Store :=
  calls.foldl (fun state call => call.run state) s

/-- Is the call a login with the hardcoded admin pair? -/
def AuthCall.usesAdminPair (call : AuthCall) : Bool :=
  match call with
  | .register _ _ _ _ _ => false
  | .login email password =>
    decide (email = "admin@gmail.com" ∧ password = "Admin@123")

/-- Every record of the users collection has role `user`. -/
def allRoleUser (s : Store) : Bool :=
  s.users.all (fun u => decide (u.role = "user"))

/-! ## Sample states -/

/-- A catalog product priced 50. -/
def sampleProduct : Product :=
  { id := 1, title := "Mouse", price := 50, description := "Wireless mouse",
    category := "Electronics", image := "mouse.png", brand := "Logitech",
    tags := ["new"], rating := none }

/-- The record of a registered user. -/
def sampleUser : User :=
  { id := "user_1", name := "Ann", email := "ann@example.com", password := "secret1",
    role := "user", createdAt := "2024-01-01T00:00:00.000Z" }

/-- A state in which Ann is logged in, the catalog holds `sampleProduct` and
her cart is empty. -/
def sampleStore : Store :=
  { users := [sampleUser],
    currentUser :=
      some [("id", "user_1"), ("email", "ann@example.com"), ("name", "Ann"), ("role", "user")],
    products := [sampleProduct], cart := [], wishlist := [], orders := [], comments := [],
    winterSaleActive := false }

/-- The state `sampleStore` with two units of `sampleProduct` in Ann's cart. -/
def sampleStoreWithCart : Store :=
  { sampleStore with cart := [("user_1", [{ productId := 1, quantity := 2 }])] }

/-- The state after Ann has placed an order for the cart of
`sampleStoreWithCart`. -/
def sampleStoreOrdered : Store :=
  (Orders.createOrder "order_1" "2024-01-04" "2024-01-01" ⟨"1 Main St", "card"⟩
    sampleStoreWithCart).store

/-- The state `sampleStoreOrdered` after the price of the product has become 40. -/
def sampleStoreRepriced : Store :=
  { sampleStoreOrdered with products := [{ sampleProduct with price := 40 }] }

/-- The state `sampleStoreOrdered` with nobody logged in. -/
def sampleStoreLoggedOut : Store :=
  { sampleStoreOrdered with currentUser := none }

/-- The state `sampleStoreOrdered` with the administrator logged in. -/
def sampleStoreAdmin : Store :=
  (Auth.login "admin@gmail.com" "Admin@123" sampleStoreOrdered).store

/-- Product A of the sorting example: its stats make it top-rated, score 9. -/
def sortA : Product := { sampleProduct with id := 1, title := "A", tags := [] }

/-- Product B of the sorting example: tagged `new`, score 3. -/
def sortB : Product := { sampleProduct with id := 2, title := "B", tags := ["new"] }

/-- Product C of the sorting example: no tags, score 5. -/
def sortC : Product := { sampleProduct with id := 3, title := "C", tags := [] }

/-- The stats of the sorting example. -/
def sortStats (id : Nat) : ProductStats :=
  if id = 1 then { rating := 4.8, count := 5, score := 9 }
  else if id = 2 then { rating := 4, count := 1, score := 3 }
  else { rating := 4, count := 1, score := 5 }

/-- Three reviews of `sampleProduct`, rated 4, 5 and 5. -/
def sampleReviews : List Review :=
  [{ id := 101, productId := 1, userId := some "ann@example.com", user := some "Ann",
     rating := 4, comment := "good", date := "2024-01-02" },
   { id := 102, productId := 1, userId := some "bob@example.com", user := some "Bob",
     rating := 5, comment := "great", date := "2024-01-03" },
   { id := 103, productId := 1, userId := some "cy@example.com", user := some "Cy",
     rating := 5, comment := "superb", date := "2024-01-04" }]

/-- The state `sampleStore` with the reviews `sampleReviews` stored for
`sampleProduct`. -/
def sampleStoreReviewed : Store :=
  { sampleStore with comments := [(1, sampleReviews)] }

/-- Twenty reviews of `sampleProduct`: thirteen rated 4, then seven rated 5. -/
def sampleReviews20 : List Review :=
  (List.range 20).map (fun i =>
    { id := 200 + i, productId := 1, userId := none, user := some "Guest",
      rating := if i < 13 then 4 else 5, comment := "ok", date := "2024-02-01" })

/-- Lower-casing of the letters A to Z, the part of
`String.prototype.toLowerCase` that the examples use. -/
def asciiToLowerCase (t : String) : String := String.mk (t.toList.map Char.toLower)

/-- A catalog product whose brand is Logitech and whose title, category and
description do not contain `log`. -/
def sampleKeyboard : Product :=
  { id := 2, title := "Keyboard", price := 80, description := "Mechanical keys",
    category := "Electronics", image := "keyboard.png", brand := "Logitech",
    tags := ["sale"], rating := none }

/-- The state `sampleStore` with a second product, a jacket, and the keyboard. -/
def sampleStoreCatalog : Store :=
  { sampleStore with
    products :=
      [{ sampleProduct with brand := "Razer" },
       sampleKeyboard,
       { id := 3, title := "Jacket", price := 60, description := "Warm",
         category := "Jackets", image := "jacket.png", brand := "Corsair",
         tags := ["new", "sale"], rating := none }] }

/-- The four falsy JSON values. -/
inductive FalsyValue where
  | null
  | false
  | zero
  | emptyString
deriving DecidableEq, Repr

/-- The functions `JSON.stringify` and `JSON.parse` on the four falsy values
and their JSON texts. -/
def falsyJson : Json FalsyValue :=
  { stringify := fun v =>
      match v with
      | .null => "null"
      | .false => "false"
      | .zero => "0"
      | .emptyString => "\"\""
    parse := fun text =>
      if text = "null" then some .null
      else if text = "false" then some .false
      else if text = "0" then some .zero
      else if text = "\"\"" then some .emptyString
      else none }

/-- The router before any navigation. -/
def sampleApp : AppState :=
  { currentRoute := "/", currentProductId := none, locationHash := "",
    handlerCalls := [], loginModalShown := false }

/-! ## Lemmas on objects and the user's cart -/

theorem jsGet_jsSet_self {β : Type} (o : List (String × β)) (k : String) (v : β) :
    jsGet (jsSet o k v) k = some v := by
  induction o with
  | nil => simp [jsSet, jsGet]
  | cons kv rest ih =>
    obtain ⟨k1, v1⟩ := kv
    by_cases h : k1 = k
    · simp [jsSet, jsGet, h]
    · simp [jsSet, jsGet, h, ih]

theorem isLoggedIn_iff (s : Store) :
    Auth.isLoggedIn s = true ↔ ∃ user, Auth.getCurrentUser s = some user := by
  simp [Auth.isLoggedIn, Auth.getCurrentUser, Option.isSome_iff_exists]

/-- With a session, the cart read back after `saveUserCart` is the saved one. -/
theorem getUserCart_saveUserCart (s : Store) (items : List CartLine)
    (h : Auth.isLoggedIn s = true) :
    Cart.getUserCart (Cart.saveUserCart items s).store = items := by
  obtain ⟨user, hu⟩ := (isLoggedIn_iff s).1 h
  simp only [Auth.getCurrentUser] at hu
  simp [Cart.saveUserCart, Cart.getUserCart, Auth.getCurrentUser, hu, jsGet_jsSet_self]

theorem saveUserCart_currentUser (s : Store) (items : List CartLine) :
    (Cart.saveUserCart items s).store.currentUser = s.currentUser := by
  unfold Cart.saveUserCart
  cases h : Auth.getCurrentUser s <;> rfl

theorem saveUserCart_products (s : Store) (items : List CartLine) :
    (Cart.saveUserCart items s).store.products = s.products := by
  unfold Cart.saveUserCart
  cases h : Auth.getCurrentUser s <;> rfl

theorem saveUserCart_isLoggedIn (s : Store) (items : List CartLine) :
    Auth.isLoggedIn (Cart.saveUserCart items s).store = Auth.isLoggedIn s := by
  simp [Auth.isLoggedIn, saveUserCart_currentUser]

theorem saveUserCart_getProductById (s : Store) (items : List CartLine) (id : Nat) :
    Products.getProductById (Cart.saveUserCart items s).store id =
      Products.getProductById s id := by
  simp [Products.getProductById, saveUserCart_products]

/-- What `addItem` stores for a logged-in user and a catalog product. -/
theorem addItem_store (s : Store) (p : Nat) (q : Int)
    (hLogin : Auth.isLoggedIn s = true)
    (hProd : (Products.getProductById s p).isSome = true) :
    (Cart.addItem p q s).store =
      (Cart.saveUserCart
        (match (Cart.getUserCart s).find? (fun item => item.productId == p) with
         | some _ =>
           updateFirst (fun item => item.productId == p)
             (fun item => { item with quantity := item.quantity + q }) (Cart.getUserCart s)
         | none => Cart.getUserCart s ++ [{ productId := p, quantity := q }]) s).store := by
  obtain ⟨prod, hp⟩ := Option.isSome_iff_exists.1 hProd
  simp [Cart.addItem, Auth.requireLogin, hLogin, hp]

theorem find?_eq_none_of_absent (items : List CartLine) (p : Nat)
    (h : ∀ item ∈ items, item.productId ≠ p) :
    items.find? (fun item => item.productId == p) = none := by
  simp only [List.find?_eq_none]
  intro item hi
  simpa using h item hi

theorem updateFirst_append_absent (items : List CartLine) (p : Nat) (line : CartLine)
    (f : CartLine → CartLine) (h : ∀ item ∈ items, item.productId ≠ p)
    (hl : line.productId = p) :
    updateFirst (fun item => item.productId == p) f (items ++ [line]) = items ++ [f line] := by
  induction items with
  | nil => simp [updateFirst, hl]
  | cons x xs ih =>
    have hx : x.productId ≠ p := h x (List.mem_cons_self _ _)
    have hxs : ∀ item ∈ xs, item.productId ≠ p := fun item hi => h item (List.mem_cons_of_mem _ hi)
    simp [updateFirst, hx, ih hxs]

/-! ## Lemmas on totals -/

theorem foldl_total (s : Store) (items : List CartLine) (acc : Rat) :
    items.foldl
      (fun total item =>
        match Products.getProductById s item.productId with
        | some product => total + product.price * (item.quantity : Rat)
        | none => total) acc
      = acc + (items.map (Cart.lineAmount s)).sum := by
  induction items generalizing acc with
  | nil => simp
  | cons x xs ih =>
    simp only [List.foldl_cons, List.map_cons, List.sum_cons, ih]
    cases hx : Products.getProductById s x.productId with
    | none => simp [Cart.lineAmount, hx]
    | some product => simp [Cart.lineAmount, hx, add_assoc]

theorem calculateTotal_eq_sum (s : Store) :
    Cart.calculateTotal s = ((Cart.getUserCart s).map (Cart.lineAmount s)).sum := by
  simp [Cart.calculateTotal, foldl_total]

theorem orderLines_isSome (s : Store) (items : List CartLine)
    (h : ∀ item ∈ items, (Products.getProductById s item.productId).isSome = true) :
    ∃ lines, Orders.orderLines s items = some lines := by
  induction items with
  | nil => exact ⟨[], rfl⟩
  | cons x xs ih =>
    obtain ⟨product, hp⟩ := Option.isSome_iff_exists.1 (h x (List.mem_cons_self _ _))
    obtain ⟨lines, hl⟩ := ih (fun item hi => h item (List.mem_cons_of_mem _ hi))
    simp [Orders.orderLines, hp, hl]

theorem orderLines_sum (s : Store) (items : List CartLine) (lines : List OrderLine)
    (h : Orders.orderLines s items = some lines) :
    (lines.map (fun entry => entry.price * (entry.quantity : Rat))).sum =
      (items.map (Cart.lineAmount s)).sum := by
  induction items generalizing lines with
  | nil =>
    simp [Orders.orderLines] at h
    subst h
    simp
  | cons x xs ih =>
    cases hp : Products.getProductById s x.productId with
    | none => simp [Orders.orderLines, hp] at h
    | some product =>
      cases hr : Orders.orderLines s xs with
      | none => simp [Orders.orderLines, hp, hr] at h
      | some rest =>
        simp [Orders.orderLines, hp, hr] at h
        subst h
        simp [Cart.lineAmount, hp, ih rest hr]

/-- The running total of `calculateTotal` over the cart is, step for step, the
running total of price times quantity over the order's `products` entries: the
two loops add the same numbers in the same order. -/
theorem orderLines_foldl (s : Store) (items : List CartLine) (lines : List OrderLine)
    (acc : Rat) (h : Orders.orderLines s items = some lines) :
    items.foldl
      (fun total item =>
        match Products.getProductById s item.productId with
        | some product => total + product.price * (item.quantity : Rat)
        | none => total) acc
      = lines.foldl (fun total entry => total + entry.price * (entry.quantity : Rat)) acc := by
  induction items generalizing lines acc with
  | nil =>
    simp [Orders.orderLines] at h
    subst h
    rfl
  | cons x xs ih =>
    cases hp : Products.getProductById s x.productId with
    | none => simp [Orders.orderLines, hp] at h
    | some product =>
      cases hr : Orders.orderLines s xs with
      | none => simp [Orders.orderLines, hp, hr] at h
      | some rest =>
        simp [Orders.orderLines, hp, hr] at h
        subst h
        simp only [List.foldl_cons, hp]
        exact ih rest _ hr

/-! ## Order total -/

/-- C1. For a logged-in user whose cart is non-empty and whose every line refers
to a catalog product, `Orders.createOrder` returns an order whose `totalAmount`
is the sum over the cart lines of catalog price times quantity, and that sum is
also the sum of price times quantity over the order's own `products` entries. -/
theorem createOrder_totalAmount (orderId estimatedDelivery createdAt : String)
    (orderData : OrderData) (s : Store)
    (hLogin : Auth.isLoggedIn s = true)
    (hCart : Cart.getUserCart s ≠ [])
    (hCatalog : ∀ item ∈ Cart.getUserCart s,
      (Products.getProductById s item.productId).isSome = true) :
    ∃ order,
      (Orders.createOrder orderId estimatedDelivery createdAt orderData s).ret
        = OrderResult.created order ∧
      order.totalAmount = ((Cart.getUserCart s).map (Cart.lineAmount s)).sum ∧
      ((Cart.getUserCart s).map (Cart.lineAmount s)).sum
        = (order.products.map (fun entry => entry.price * (entry.quantity : Rat))).sum := by
  obtain ⟨user, hu⟩ := (isLoggedIn_iff s).1 hLogin
  obtain ⟨lines, hl⟩ := orderLines_isSome s (Cart.getUserCart s) hCatalog
  simp only [Orders.createOrder, hu, hl, List.length_eq_zero, hCart, if_false]
  refine ⟨_, rfl, ?_, ?_⟩
  · exact calculateTotal_eq_sum s
  · exact (orderLines_sum s (Cart.getUserCart s) lines hl).symm

/-- A cart of one line with price 50 and quantity 2 gives `totalAmount` 100. -/
theorem createOrder_totalAmount_witness :
    ∃ order,
      (Orders.createOrder "order_1" "2024-01-04" "2024-01-01" ⟨"1 Main St", "card"⟩
        sampleStoreWithCart).ret = OrderResult.created order ∧
      order.totalAmount = 100 ∧
      (order.products.map (fun entry => entry.price * (entry.quantity : Rat))).sum = 100 := by
  obtain ⟨order, h1, h2, h3⟩ :=
    createOrder_totalAmount "order_1" "2024-01-04" "2024-01-01" ⟨"1 Main St", "card"⟩
      sampleStoreWithCart (by decide) (by decide) (by decide)
  have hcart : Cart.getUserCart sampleStoreWithCart = [{ productId := 1, quantity := 2 }] := by
    decide
  have hprod : Products.getProductById sampleStoreWithCart 1 = some sampleProduct := by
    decide
  have hsum : ((Cart.getUserCart sampleStoreWithCart).map
      (Cart.lineAmount sampleStoreWithCart)).sum = 100 := by
    rw [hcart]
    simp only [List.map_cons, List.map_nil, List.sum_cons, List.sum_nil, Cart.lineAmount, hprod]
    norm_num [sampleProduct]
  exact ⟨order, h1, h2.trans hsum, h3 ▸ hsum⟩

/-! ## Cart merge -/

/-- C2. For a logged-in user, a catalog product `p` and quantities `q1, q2 ≥ 1`:
if the user's cart has no line for `p`, then after `Cart.addItem p q1` followed
by `Cart.addItem p q2` the cart is the old cart followed by one line for `p`
with quantity `q1 + q2`; so exactly one line has product id `p`, and the other
lines are the old ones, unchanged. -/
theorem addItem_twice_merges (s : Store) (p : Nat) (q1 q2 : Int)
    (hLogin : Auth.isLoggedIn s = true)
    (hProd : (Products.getProductById s p).isSome = true)
    (_hq1 : 1 ≤ q1) (_hq2 : 1 ≤ q2)
    (hAbsent : ∀ item ∈ Cart.getUserCart s, item.productId ≠ p) :
    Cart.getUserCart (Cart.addItem p q2 (Cart.addItem p q1 s).store).store
        = Cart.getUserCart s ++ [{ productId := p, quantity := q1 + q2 }] ∧
    (Cart.getUserCart (Cart.addItem p q2 (Cart.addItem p q1 s).store).store).filter
        (fun item => item.productId == p) = [{ productId := p, quantity := q1 + q2 }] ∧
    (Cart.getUserCart (Cart.addItem p q2 (Cart.addItem p q1 s).store).store).filter
        (fun item => item.productId != p) = Cart.getUserCart s := by
  have hnone := find?_eq_none_of_absent (Cart.getUserCart s) p hAbsent
  have h1 : (Cart.addItem p q1 s).store
      = (Cart.saveUserCart (Cart.getUserCart s ++ [{ productId := p, quantity := q1 }]) s).store := by
    rw [addItem_store s p q1 hLogin hProd, hnone]
  have hLogin1 : Auth.isLoggedIn (Cart.addItem p q1 s).store = true := by
    rw [h1, saveUserCart_isLoggedIn]; exact hLogin
  have hProd1 : (Products.getProductById (Cart.addItem p q1 s).store p).isSome = true := by
    rw [h1, saveUserCart_getProductById]; exact hProd
  have hcart1 : Cart.getUserCart (Cart.addItem p q1 s).store
      = Cart.getUserCart s ++ [{ productId := p, quantity := q1 }] := by
    rw [h1, getUserCart_saveUserCart s _ hLogin]
  have hfound : (Cart.getUserCart s ++ [({ productId := p, quantity := q1 } : CartLine)]).find?
      (fun item => item.productId == p) = some { productId := p, quantity := q1 } := by
    rw [List.find?_append, hnone]
    simp
  have hfinal : Cart.getUserCart (Cart.addItem p q2 (Cart.addItem p q1 s).store).store
      = Cart.getUserCart s ++ [{ productId := p, quantity := q1 + q2 }] := by
    rw [addItem_store _ p q2 hLogin1 hProd1, getUserCart_saveUserCart _ _ hLogin1, hcart1, hfound]
    exact updateFirst_append_absent (Cart.getUserCart s) p _ _ hAbsent rfl
  refine ⟨hfinal, ?_, ?_⟩
  · rw [hfinal, List.filter_append]
    have : (Cart.getUserCart s).filter (fun item => item.productId == p) = [] := by
      simp only [List.filter_eq_nil_iff]
      intro item hi
      simpa using hAbsent item hi
    simp [this]
  · rw [hfinal, List.filter_append]
    have : (Cart.getUserCart s).filter (fun item => item.productId != p) = Cart.getUserCart s := by
      simp only [List.filter_eq_self]
      intro item hi
      simpa using hAbsent item hi
    simp [this]

/-- Adding product 1 with quantity 2 and then 3 to an empty cart leaves the
single line of quantity 5. -/
theorem addItem_twice_merges_witness :
    Cart.getUserCart (Cart.addItem 1 3 (Cart.addItem 1 2 sampleStore).store).store
      = [{ productId := 1, quantity := 5 }] :=
  (addItem_twice_merges sampleStore 1 2 3 (by decide) (by decide) (by decide) (by decide)
    (by decide)).1

/-! ## Cart quantities -/

theorem mem_of_jsGet {β : Type} (o : List (String × β)) (k : String) (v : β)
    (h : jsGet o k = some v) : (k, v) ∈ o := by
  induction o with
  | nil => simp [jsGet] at h
  | cons kv rest ih =>
    obtain ⟨k1, v1⟩ := kv
    by_cases hk : k1 = k
    · simp [jsGet, hk] at h
      simp [hk, h]
    · simp [jsGet, hk] at h
      exact List.mem_cons_of_mem _ (ih h)

theorem mem_jsSet {β : Type} (o : List (String × β)) (k : String) (v : β)
    (e : String × β) (h : e ∈ jsSet o k v) : e ∈ o ∨ e = (k, v) := by
  induction o with
  | nil => simpa [jsSet] using h
  | cons kv rest ih =>
    obtain ⟨k1, v1⟩ := kv
    by_cases hk : k1 = k
    · simp [jsSet, hk] at h
      rcases h with h | h
      · exact Or.inr h
      · exact Or.inl (List.mem_cons_of_mem _ h)
    · simp [jsSet, hk] at h
      rcases h with h | h
      · exact Or.inl (by simp [h])
      · rcases ih h with h1 | h1
        · exact Or.inl (List.mem_cons_of_mem _ h1)
        · exact Or.inr h1

theorem mem_updateFirst {α : Type} (p : α → Bool) (f : α → α) (l : List α) (x : α)
    (h : x ∈ updateFirst p f l) : x ∈ l ∨ ∃ y ∈ l, x = f y := by
  induction l with
  | nil => simp [updateFirst] at h
  | cons a as ih =>
    by_cases hp : p a = true
    · simp [updateFirst, hp] at h
      rcases h with h | h
      · exact Or.inr ⟨a, List.mem_cons_self _ _, h⟩
      · exact Or.inl (List.mem_cons_of_mem _ h)
    · simp [updateFirst, hp] at h
      rcases h with h | h
      · exact Or.inl (by simp [h])
      · rcases ih h with h1 | ⟨y, hy, hxy⟩
        · exact Or.inl (List.mem_cons_of_mem _ h1)
        · exact Or.inr ⟨y, List.mem_cons_of_mem _ hy, hxy⟩

theorem cartQuantitiesOk_iff (s : Store) :
    cartQuantitiesOk s = true ↔ ∀ entry ∈ s.cart, ∀ line ∈ entry.2, 1 ≤ line.quantity := by
  simp [cartQuantitiesOk, List.all_eq_true]

theorem getUserCart_quantities (s : Store) (h : cartQuantitiesOk s = true) :
    ∀ line ∈ Cart.getUserCart s, 1 ≤ line.quantity := by
  intro line hl
  unfold Cart.getUserCart at hl
  cases hu : Auth.getCurrentUser s with
  | none => simp [hu] at hl
  | some user =>
    simp only [hu] at hl
    cases hg : jsGet s.cart (jsKey (jsGet user "id")) with
    | none => simp [hg] at hl
    | some lines =>
      simp only [hg, Option.getD_some] at hl
      exact (cartQuantitiesOk_iff s).1 h _ (mem_of_jsGet _ _ _ hg) line hl

theorem saveUserCart_quantities (s : Store) (items : List CartLine)
    (h : cartQuantitiesOk s = true) (hi : ∀ line ∈ items, 1 ≤ line.quantity) :
    cartQuantitiesOk (Cart.saveUserCart items s).store = true := by
  unfold Cart.saveUserCart
  cases hu : Auth.getCurrentUser s with
  | none => simpa using h
  | some user =>
    rw [cartQuantitiesOk_iff]
    intro entry he line hl
    rcases mem_jsSet _ _ _ _ he with h1 | h1
    · exact (cartQuantitiesOk_iff s).1 h entry h1 line hl
    · subst h1
      exact hi line hl

/-- The part of the cart invariant that the code keeps: the empty cart
satisfies it; `updateQuantity`, `removeItem` and `clearCart` preserve it for
every argument; `addItem` preserves it when the quantity added is at least 1. -/
theorem cartQuantitiesOk_preserved (s : Store) (p : Nat) (q : Int)
    (h : cartQuantitiesOk s = true) :
    cartQuantitiesOk Store.empty = true ∧
    cartQuantitiesOk (Cart.updateQuantity p q s).store = true ∧
    cartQuantitiesOk (Cart.removeItem p s).store = true ∧
    cartQuantitiesOk (Cart.clearCart s).store = true ∧
    (1 ≤ q → cartQuantitiesOk (Cart.addItem p q s).store = true) := by
  have hcart := getUserCart_quantities s h
  have hrem : cartQuantitiesOk (Cart.removeItem p s).store = true := by
    apply saveUserCart_quantities s _ h
    intro line hl
    exact hcart line (List.mem_of_mem_filter hl)
  refine ⟨by decide, ?_, hrem, ?_, ?_⟩
  · unfold Cart.updateQuantity
    by_cases hq : q < 1
    · simpa [hq] using hrem
    · simp only [hq, if_false]
      cases hf : (Cart.getUserCart s).find? (fun item => item.productId == p) with
      | none => simpa using h
      | some found =>
        apply saveUserCart_quantities s _ h
        intro line hl
        rcases mem_updateFirst _ _ _ _ hl with h1 | ⟨y, _, hy⟩
        · exact hcart line h1
        · subst hy
          show (1 : Int) ≤ q
          omega
  · exact saveUserCart_quantities s [] h (by simp)
  · intro hq
    unfold Cart.addItem
    by_cases hr : Auth.requireLogin s = true
    · simp only [hr, Bool.not_true, Bool.false_eq_true, if_false]
      cases hp : Products.getProductById s p with
      | none => simpa using h
      | some product =>
        apply saveUserCart_quantities s _ h
        intro line hl
        cases hf : (Cart.getUserCart s).find? (fun item => item.productId == p) with
        | none =>
          simp only [hf, List.mem_append, List.mem_singleton] at hl
          rcases hl with h1 | h1
          · exact hcart line h1
          · subst h1
            exact hq
        | some found =>
          simp only [hf] at hl
          rcases mem_updateFirst _ _ _ _ hl with h1 | ⟨y, hy, hxy⟩
          · exact hcart line h1
          · subst hxy
            have := hcart y hy
            show (1 : Int) ≤ y.quantity + q
            omega
    · simp only [Bool.not_eq_true] at hr
      simpa [hr] using h

/-- C3 (failing input). With a user logged in, product 1 in the catalog and an
empty cart, the invariant holds; after `Cart.addItem 1 0` the user's cart holds
a line of quantity 0 and the invariant is broken.  Likewise adding -3 to a line
of quantity 2 stores quantity -1. -/
theorem addItem_breaks_cartQuantitiesOk :
    cartQuantitiesOk sampleStore = true ∧
    Cart.getUserCart (Cart.addItem 1 0 sampleStore).store
      = [{ productId := 1, quantity := 0 }] ∧
    cartQuantitiesOk (Cart.addItem 1 0 sampleStore).store = false ∧
    cartQuantitiesOk sampleStoreWithCart = true ∧
    Cart.getUserCart (Cart.addItem 1 (-3) sampleStoreWithCart).store
      = [{ productId := 1, quantity := -1 }] ∧
    cartQuantitiesOk (Cart.addItem 1 (-3) sampleStoreWithCart).store = false := by
  decide

/-! ## The e-mail pattern -/

theorem dropWhile_eq_cons {α : Type} (p : α → Bool) (l : List α) (d : α) (rest : List α)
    (h : l.dropWhile p = d :: rest) : l = l.takeWhile p ++ d :: rest ∧ p d = false := by
  induction l with
  | nil => simp at h
  | cons x xs ih =>
    by_cases hx : p x = true
    · simp only [List.dropWhile_cons, hx, if_true] at h
      obtain ⟨h1, h2⟩ := ih h
      refine ⟨?_, h2⟩
      simp only [List.takeWhile_cons, hx, if_true, List.cons_append]
      rw [← h1]
    · simp only [List.dropWhile_cons, hx, Bool.false_eq_true, if_false] at h
      simp only [List.cons.injEq] at h
      obtain ⟨h1, h2⟩ := h
      subst h1 h2
      simp [List.takeWhile_cons, hx]

theorem takeWhile_append_stop {α : Type} (p : α → Bool) (a : List α) (d : α) (rest : List α)
    (ha : ∀ x ∈ a, p x = true) (hd : p d = false) :
    (a ++ d :: rest).takeWhile p = a ∧ (a ++ d :: rest).dropWhile p = d :: rest := by
  induction a with
  | nil => simp [List.takeWhile_cons, List.dropWhile_cons, hd]
  | cons x xs ih =>
    have hx : p x = true := ha x (List.mem_cons_self _ _)
    obtain ⟨h1, h2⟩ := ih (fun y hy => ha y (List.mem_cons_of_mem _ hy))
    simp [List.takeWhile_cons, List.dropWhile_cons, hx, h1, h2]

/-- The domain test accepts exactly `b.c` with `b` and `c` non-empty and all
characters in the class. -/
theorem matchDomain_iff (cs : List Char) :
    Utils.matchDomain cs = true ↔
      ∃ b c : List Char, b ≠ [] ∧ c ≠ [] ∧ (∀ x ∈ b, Utils.emailChar x = true) ∧
        (∀ x ∈ c, Utils.emailChar x = true) ∧ cs = b ++ '.' :: c := by
  constructor
  · intro h
    simp only [Utils.matchDomain, Bool.and_eq_true, List.all_eq_true] at h
    obtain ⟨hall, hdot0⟩ := h
    cases cs with
    | nil => simp at hdot0
    | cons x rest =>
      have hdot : '.' ∈ rest.dropLast := by simpa using hdot0
      have hne : rest ≠ [] := by
        intro hr
        subst hr
        simp at hdot
      obtain ⟨p, q, hpq⟩ := List.append_of_mem hdot
      obtain ⟨last, hlast⟩ : ∃ last, rest = rest.dropLast ++ [last] :=
        ⟨rest.getLast hne, (List.dropLast_append_getLast hne).symm⟩
      have hrest : rest = p ++ '.' :: (q ++ [last]) := by
        rw [hpq] at hlast
        simpa using hlast
      refine ⟨x :: p, q ++ [last], by simp, by simp, ?_, ?_, ?_⟩
      · intro y hy
        apply hall
        rw [hrest]
        rcases List.mem_cons.1 hy with h1 | h1
        · simp [h1]
        · simp [h1]
      · intro y hy
        apply hall
        rw [hrest]
        simp only [List.mem_cons, List.mem_append]
        right; right; right
        simpa using hy
      · rw [hrest]
        simp
  · rintro ⟨b, c, hb, hc, hballs, hcalls, rfl⟩
    simp only [Utils.matchDomain, Bool.and_eq_true, List.all_eq_true]
    constructor
    · intro y hy
      rcases List.mem_append.1 hy with h1 | h1
      · exact hballs y h1
      · rcases List.mem_cons.1 h1 with h2 | h2
        · subst h2; decide
        · exact hcalls y h2
    · cases b with
      | nil => exact absurd rfl hb
      | cons x p =>
        simp only [List.cons_append, List.drop_succ_cons, List.drop_zero]
        rw [List.dropLast_append_of_ne_nil _ (by simp), List.dropLast_cons_of_ne_nil hc]
        simp

/-- The test `isValidEmail` accepts exactly the strings of the shape
`a@b.c` matched by `/^[^\s@]+@[^\s@]+\.[^\s@]+$/`: three non-empty segments of
characters that are neither white space nor `@`. -/
theorem isValidEmail_iff (email : String) :
    Utils.isValidEmail email = true ↔
      ∃ a b c : List Char, a ≠ [] ∧ b ≠ [] ∧ c ≠ [] ∧
        (∀ x ∈ a, Utils.emailChar x = true) ∧ (∀ x ∈ b, Utils.emailChar x = true) ∧
        (∀ x ∈ c, Utils.emailChar x = true) ∧
        email.toList = a ++ '@' :: (b ++ '.' :: c) := by
  unfold Utils.isValidEmail
  generalize email.toList = cs
  dsimp only
  constructor
  · intro h
    cases hd : cs.dropWhile (fun c => c != '@') with
    | nil => simp [hd] at h
    | cons d domain =>
      simp only [hd, Bool.and_eq_true] at h
      obtain ⟨⟨hne, hfront⟩, hdom⟩ := h
      obtain ⟨hsplit, hstop⟩ := dropWhile_eq_cons _ _ _ _ hd
      have hat : d = '@' := by simpa using hstop
      subst hat
      obtain ⟨b, c, hb, hc, hbs, hcs, hbc⟩ := (matchDomain_iff domain).1 hdom
      refine ⟨cs.takeWhile (fun c => c != '@'), b, c, ?_, hb, hc, ?_, hbs, hcs, ?_⟩
      · intro h0
        rw [h0] at hne
        simp at hne
      · simpa [List.all_eq_true] using hfront
      · rw [← hbc]
        exact hsplit
  · rintro ⟨a, b, c, ha, hb, hc, has, hbs, hcs, heq⟩
    have hp : ∀ x ∈ a, (fun c => c != '@') x = true := by
      intro x hx
      have := has x hx
      simp only [Utils.emailChar, Bool.and_eq_true] at this
      exact this.2
    obtain ⟨h1, h2⟩ := takeWhile_append_stop (fun c => c != '@') a '@' (b ++ '.' :: c) hp
      (by simp)
    rw [heq, h1, h2]
    simp only [Bool.and_eq_true]
    refine ⟨⟨?_, ?_⟩, (matchDomain_iff _).2 ⟨b, c, hb, hc, hbs, hcs, rfl⟩⟩
    · cases a with
      | nil => exact absurd rfl ha
      | cons x xs => rfl
    · simpa [List.all_eq_true] using has

/-! ## Registration -/

theorem isValidEmail_ne_empty (email : String) (h : Utils.isValidEmail email = true) :
    email ≠ "" := by
  intro he
  subst he
  exact absurd h (by decide)

theorem jsLength_empty : Utils.jsLength "" = 0 := by decide

theorem find?_email_eq_none (users : List User) (email : String) :
    users.find? (fun u => decide (u.email = email)) = none ↔ ∀ u ∈ users, u.email ≠ email := by
  simp [List.find?_eq_none]

/-- What a call of `register` that passes every check does. -/
theorem register_accepts (newId createdAt name email password : String) (s : Store)
    (hName : name ≠ "") (hEmail : Utils.isValidEmail email = true)
    (hPassword : 6 ≤ Utils.jsLength password)
    (hFresh : ∀ u ∈ s.users, u.email ≠ email) :
    (Auth.register newId createdAt name email password s).ret = true ∧
    (Auth.register newId createdAt name email password s).store =
      { s with
        users := s.users ++ [{ id := newId, name := name, email := email,
                               password := password, role := "user",
                               createdAt := createdAt }],
        currentUser :=
          some [("id", newId), ("email", email), ("name", name), ("role", "user")] } := by
  have hE : email ≠ "" := isValidEmail_ne_empty email hEmail
  have hP : password ≠ "" := by
    intro hp
    subst hp
    rw [jsLength_empty] at hPassword
    omega
  have hV : Utils.isValidPassword password = true := by
    simp [Utils.isValidPassword, hP, hPassword]
  have hF := (find?_email_eq_none s.users email).2 hFresh
  simp [Auth.register, hName, hE, hP, hEmail, hV, hF, Auth.setCurrentUser]

/-- A call of `register` that returns `true` passed the e-mail lookup: no
stored record has that e-mail, and the new record is appended. -/
theorem register_ret_true (newId createdAt name email password : String) (s : Store)
    (h : (Auth.register newId createdAt name email password s).ret = true) :
    (∀ u ∈ s.users, u.email ≠ email) ∧
    (Auth.register newId createdAt name email password s).store =
      { s with
        users := s.users ++ [{ id := newId, name := name, email := email,
                               password := password, role := "user",
                               createdAt := createdAt }],
        currentUser :=
          some [("id", newId), ("email", email), ("name", name), ("role", "user")] } := by
  unfold Auth.register at h ⊢
  dsimp only at h ⊢
  split_ifs at h ⊢ with h1 h2 h3
  cases hf : s.users.find? (fun u => decide (u.email = email)) with
  | some found => simp [hf] at h
  | none =>
    refine ⟨(find?_email_eq_none s.users email).1 hf, ?_⟩
    simp [Auth.setCurrentUser]

/-- A call of `register` that returns `false` leaves the storage as it was. -/
theorem register_ret_false (newId createdAt name email password : String) (s : Store)
    (h : (Auth.register newId createdAt name email password s).ret = false) :
    (Auth.register newId createdAt name email password s).store = s := by
  unfold Auth.register at h ⊢
  dsimp only at h ⊢
  split_ifs at h ⊢ with h1 h2 h3
  · rfl
  · rfl
  · rfl
  · cases hf : s.users.find? (fun u => decide (u.email = email)) with
    | some found => rfl
    | none => simp [hf] at h

/-- The part of e-mail uniqueness that the code keeps: after a successful
registration, a second registration with the very same e-mail string returns
`false` and leaves the storage unchanged. -/
theorem register_same_email_twice (id1 t1 n1 e1 p1 id2 t2 n2 p2 : String) (s : Store)
    (h : (Auth.register id1 t1 n1 e1 p1 s).ret = true) :
    (Auth.register id2 t2 n2 e1 p2 (Auth.register id1 t1 n1 e1 p1 s).store).ret = false ∧
    (Auth.register id2 t2 n2 e1 p2 (Auth.register id1 t1 n1 e1 p1 s).store).store
      = (Auth.register id1 t1 n1 e1 p1 s).store := by
  have hstore := (register_ret_true id1 t1 n1 e1 p1 s h).2
  have hret : (Auth.register id2 t2 n2 e1 p2 (Auth.register id1 t1 n1 e1 p1 s).store).ret
      = false := by
    rw [hstore]
    unfold Auth.register
    dsimp only
    split_ifs with h1 h2 h3
    · rfl
    · rfl
    · rfl
    · have hsome : ∃ u, (s.users ++ [User.mk id1 n1 e1 p1 "user" t1]).find?
          (fun u => decide (u.email = e1)) = some u := by
        rw [← Option.isSome_iff_exists, List.find?_isSome]
        exact ⟨User.mk id1 n1 e1 p1 "user" t1, by simp, by simp⟩
      obtain ⟨u, hu⟩ := hsome
      rw [hu]
  exact ⟨hret, register_ret_false _ _ _ _ _ _ hret⟩

/-- C4 (failing input). On fresh storage, registering `Ann@Example.com` and then
`ann@example.com`, two addresses equal up to letter case, succeeds both times
and leaves two records in the users collection. -/
theorem register_case_variant_accepted :
    "Ann@Example.com".toList.map Char.toLower = "ann@example.com".toList.map Char.toLower ∧
    (Auth.register "user_1" "t1" "Ann" "Ann@Example.com" "secret1" Store.empty).ret = true ∧
    (Auth.register "user_2" "t2" "Bob" "ann@example.com" "secret2"
      (Auth.register "user_1" "t1" "Ann" "Ann@Example.com" "secret1" Store.empty).store).ret
      = true ∧
    (Auth.register "user_2" "t2" "Bob" "ann@example.com" "secret2"
      (Auth.register "user_1" "t1" "Ann" "Ann@Example.com" "secret1" Store.empty).store).store.users
      = [{ id := "user_1", name := "Ann", email := "Ann@Example.com", password := "secret1",
           role := "user", createdAt := "t1" },
         { id := "user_2", name := "Bob", email := "ann@example.com", password := "secret2",
           role := "user", createdAt := "t2" }] := by
  decide

/-- C5. For every name, e-mail, stored state and every password of length below
6, `Auth.register` returns `false` and leaves the users collection and
`currentUser` unchanged. -/
theorem register_short_password (newId createdAt name email password : String) (s : Store)
    (hShort : Utils.jsLength password < 6) :
    (Auth.register newId createdAt name email password s).ret = false ∧
    (Auth.register newId createdAt name email password s).store.users = s.users ∧
    (Auth.register newId createdAt name email password s).store.currentUser
      = s.currentUser := by
  have hret : (Auth.register newId createdAt name email password s).ret = false := by
    unfold Auth.register
    dsimp only
    split_ifs with h1 h2 h3
    · rfl
    · rfl
    · rfl
    · exfalso
      simp [Utils.isValidPassword] at h3
      omega
  rw [register_ret_false _ _ _ _ _ _ hret]
  exact ⟨hret, rfl, rfl⟩

/-- The five-character password `abcde` is refused on a store that holds a user
and a session, and both stay as they were. -/
theorem register_short_password_witness :
    (Auth.register "user_2" "t2" "Bob" "bob@example.com" "abcde" sampleStore).ret = false ∧
    (Auth.register "user_2" "t2" "Bob" "bob@example.com" "abcde" sampleStore).store.users
      = [sampleUser] ∧
    (Auth.register "user_2" "t2" "Bob" "bob@example.com" "abcde" sampleStore).store.currentUser
      = sampleStore.currentUser :=
  register_short_password "user_2" "t2" "Bob" "bob@example.com" "abcde" sampleStore (by decide)

/-! ## Login -/

/-- C6. Whatever the users collection holds, `Auth.login` with the hardcoded
admin pair returns `true`, stores under `currentUser` the fixed admin record,
whose role is `admin`, and leaves the users collection unchanged. -/
theorem login_admin_pair (s : Store) :
    (Auth.login "admin@gmail.com" "Admin@123" s).ret = true ∧
    (Auth.login "admin@gmail.com" "Admin@123" s).store.currentUser
      = some [("id", "admin"), ("email", "admin@gmail.com"), ("name", "Administrator"),
              ("role", "admin")] ∧
    (∃ user, (Auth.login "admin@gmail.com" "Admin@123" s).store.currentUser = some user ∧
      jsGet user "role" = some "admin") ∧
    Auth.isAdmin (Auth.login "admin@gmail.com" "Admin@123" s).store = true ∧
    (Auth.login "admin@gmail.com" "Admin@123" s).store.users = s.users := by
  have hstore : (Auth.login "admin@gmail.com" "Admin@123" s).store
      = { s with currentUser := some [("id", "admin"), ("email", "admin@gmail.com"),
            ("name", "Administrator"), ("role", "admin")] } := by
    simp [Auth.login, Auth.ADMIN_EMAIL, Auth.ADMIN_PASSWORD, Auth.setCurrentUser]
  have hret : (Auth.login "admin@gmail.com" "Admin@123" s).ret = true := by
    simp [Auth.login, Auth.ADMIN_EMAIL, Auth.ADMIN_PASSWORD]
  rw [hstore]
  refine ⟨hret, rfl, ⟨_, rfl, by decide⟩, ?_, rfl⟩
  simp [Auth.isAdmin, Auth.getCurrentUser, jsGet]

/-- What `login` does once the blank check and the admin check are behind it:
it depends only on the first stored user with the given e-mail. -/
theorem login_regular (email password : String) (s : Store)
    (hEmail : email ≠ "") (hPassword : password ≠ "")
    (hNotAdmin : ¬ (email = "admin@gmail.com" ∧ password = "Admin@123")) :
    Auth.login email password s =
      match s.users.find? (fun u => decide (u.email = email)) with
      | none => ⟨false, some ⟨"User not found", "error"⟩, s⟩
      | some user =>
        if user.password ≠ password then
          ⟨false, some ⟨"Wrong password", "error"⟩, s⟩
        else
          ⟨true, some ⟨"Welcome back, " ++ user.name ++ "!", "success"⟩,
            Auth.setCurrentUser
              [("id", user.id), ("email", user.email), ("name", user.name),
               ("role", user.role)] s⟩ := by
  unfold Auth.login
  dsimp only
  rw [if_neg (by simp [hEmail, hPassword]), if_neg (by simpa [Auth.ADMIN_EMAIL, Auth.ADMIN_PASSWORD] using hNotAdmin)]

/-- C7. For a non-empty e-mail and password other than the hardcoded admin pair:
if no stored user has that e-mail, `Auth.login` returns `false` with the toast
`User not found`; if the first stored user with that e-mail has a different
password, it returns `false` with the toast `Wrong password`; the two messages
differ; and in both cases the users collection and `currentUser` are unchanged. -/
theorem login_failures (email password : String) (s : Store)
    (hEmail : email ≠ "") (hPassword : password ≠ "")
    (hNotAdmin : ¬ (email = "admin@gmail.com" ∧ password = "Admin@123")) :
    ((∀ u ∈ s.users, u.email ≠ email) →
      (Auth.login email password s).ret = false ∧
      (Auth.login email password s).toast = some ⟨"User not found", "error"⟩ ∧
      (Auth.login email password s).store.users = s.users ∧
      (Auth.login email password s).store.currentUser = s.currentUser) ∧
    (∀ user, s.users.find? (fun u => decide (u.email = email)) = some user →
      user.password ≠ password →
      (Auth.login email password s).ret = false ∧
      (Auth.login email password s).toast = some ⟨"Wrong password", "error"⟩ ∧
      (Auth.login email password s).store.users = s.users ∧
      (Auth.login email password s).store.currentUser = s.currentUser) ∧
    "User not found" ≠ "Wrong password" := by
  have hlogin := login_regular email password s hEmail hPassword hNotAdmin
  refine ⟨?_, ?_, by decide⟩
  · intro hNone
    rw [hlogin, (find?_email_eq_none s.users email).2 hNone]
    exact ⟨rfl, rfl, rfl, rfl⟩
  · intro user hFound hWrong
    rw [hlogin, hFound]
    simp [hWrong]

/-- On `sampleStore`, an unknown e-mail gives `User not found` and Ann's e-mail
with another password gives `Wrong password`. -/
theorem login_failures_witness :
    ((Auth.login "bob@example.com" "secret1" sampleStore).ret = false ∧
      (Auth.login "bob@example.com" "secret1" sampleStore).toast
        = some ⟨"User not found", "error"⟩ ∧
      (Auth.login "bob@example.com" "secret1" sampleStore).store.users = sampleStore.users ∧
      (Auth.login "bob@example.com" "secret1" sampleStore).store.currentUser
        = sampleStore.currentUser) ∧
    ((Auth.login "ann@example.com" "guess99" sampleStore).ret = false ∧
      (Auth.login "ann@example.com" "guess99" sampleStore).toast
        = some ⟨"Wrong password", "error"⟩ ∧
      (Auth.login "ann@example.com" "guess99" sampleStore).store.users = sampleStore.users ∧
      (Auth.login "ann@example.com" "guess99" sampleStore).store.currentUser
        = sampleStore.currentUser) :=
  ⟨(login_failures "bob@example.com" "secret1" sampleStore (by decide) (by decide)
      (by decide)).1 (by decide),
   (login_failures "ann@example.com" "guess99" sampleStore (by decide) (by decide)
      (by decide)).2.1 sampleUser (by decide) (by decide)⟩

/-! ## The session record -/

/-- C8. A login of a stored user with the right password (credentials other
than the hardcoded admin pair) succeeds, and the value it stores under
`currentUser` is the object with exactly the fields `id`, `email`, `name`,
`role`, each equal to that of the matched user record (the first stored one
with that e-mail), and no `password` field, whatever `currentUser` held before.
Every successful `Auth.login` other than the admin one is of this kind.  The
same holds for `Auth.register`: a registration that passes the checks succeeds
and stores the four fields of the record it appended, and every successful
registration is of this kind. -/
theorem session_fields (email password newId createdAt name : String) (s : Store) :
    (email ≠ "" → password ≠ "" →
      ¬ (email = "admin@gmail.com" ∧ password = "Admin@123") →
      ∀ user, s.users.find? (fun u => decide (u.email = email)) = some user →
        user.password = password →
        (Auth.login email password s).ret = true ∧
        ∃ session,
          (Auth.login email password s).store.currentUser = some session ∧
          session = [("id", user.id), ("email", user.email), ("name", user.name),
                     ("role", user.role)] ∧
          session.map Prod.fst = ["id", "email", "name", "role"] ∧
          jsGet session "id" = some user.id ∧
          jsGet session "email" = some user.email ∧
          jsGet session "name" = some user.name ∧
          jsGet session "role" = some user.role ∧
          jsGet session "password" = none) ∧
    (¬ (email = "admin@gmail.com" ∧ password = "Admin@123") →
      (Auth.login email password s).ret = true →
      ∃ user session,
        s.users.find? (fun u => decide (u.email = email)) = some user ∧
        (Auth.login email password s).store.currentUser = some session ∧
        session.map Prod.fst = ["id", "email", "name", "role"] ∧
        jsGet session "id" = some user.id ∧
        jsGet session "email" = some user.email ∧
        jsGet session "name" = some user.name ∧
        jsGet session "role" = some user.role ∧
        jsGet session "password" = none) ∧
    (name ≠ "" → Utils.isValidEmail email = true → 6 ≤ Utils.jsLength password →
      (∀ u ∈ s.users, u.email ≠ email) →
      (Auth.register newId createdAt name email password s).ret = true ∧
      ∃ user session,
        (Auth.register newId createdAt name email password s).store.users
          = s.users ++ [user] ∧
        (Auth.register newId createdAt name email password s).store.currentUser
          = some session ∧
        session = [("id", newId), ("email", email), ("name", name), ("role", "user")] ∧
        session.map Prod.fst = ["id", "email", "name", "role"] ∧
        jsGet session "id" = some user.id ∧
        jsGet session "email" = some user.email ∧
        jsGet session "name" = some user.name ∧
        jsGet session "role" = some user.role ∧
        jsGet session "password" = none) ∧
    ((Auth.register newId createdAt name email password s).ret = true →
      ∃ user session,
        (Auth.register newId createdAt name email password s).store.users
          = s.users ++ [user] ∧
        (Auth.register newId createdAt name email password s).store.currentUser
          = some session ∧
        session.map Prod.fst = ["id", "email", "name", "role"] ∧
        jsGet session "id" = some user.id ∧
        jsGet session "email" = some user.email ∧
        jsGet session "name" = some user.name ∧
        jsGet session "role" = some user.role ∧
        jsGet session "password" = none) := by
  refine ⟨?_, ?_, ?_, ?_⟩
  · intro hE hP hNotAdmin user hFound hpw
    rw [login_regular email password s hE hP hNotAdmin, hFound]
    refine ⟨by simp [hpw], [("id", user.id), ("email", user.email), ("name", user.name),
      ("role", user.role)], ?_, rfl, rfl, ?_, ?_, ?_, ?_, ?_⟩
    · simp [hpw, Auth.setCurrentUser]
    all_goals simp [jsGet]
  · intro hNotAdmin hOk
    have hE : email ≠ "" := by
      intro h
      subst h
      simp [Auth.login] at hOk
    have hP : password ≠ "" := by
      intro h
      subst h
      simp [Auth.login] at hOk
    rw [login_regular email password s hE hP hNotAdmin] at hOk ⊢
    cases hf : s.users.find? (fun u => decide (u.email = email)) with
    | none => simp [hf] at hOk
    | some user =>
      by_cases hpw : user.password = password
      · refine ⟨user, [("id", user.id), ("email", user.email), ("name", user.name),
          ("role", user.role)], rfl, ?_, rfl, ?_, ?_, ?_, ?_, ?_⟩
        · simp [hpw, Auth.setCurrentUser]
        all_goals simp [jsGet]
      · simp [hf, hpw] at hOk
  · intro hName hEmail hPassword hFresh
    obtain ⟨hret, hstore⟩ :=
      register_accepts newId createdAt name email password s hName hEmail hPassword hFresh
    rw [hstore]
    refine ⟨hret, User.mk newId name email password "user" createdAt,
      [("id", newId), ("email", email), ("name", name), ("role", "user")],
      rfl, rfl, rfl, rfl, ?_, ?_, ?_, ?_, ?_⟩
    all_goals simp [jsGet]
  · intro hOk
    rw [(register_ret_true newId createdAt name email password s hOk).2]
    refine ⟨User.mk newId name email password "user" createdAt,
      [("id", newId), ("email", email), ("name", name), ("role", "user")],
      rfl, rfl, rfl, ?_, ?_, ?_, ?_, ?_⟩
    all_goals simp [jsGet]

/-- Nobody is logged in on `sampleStoreLoggedOut`.  Ann logs in there with her
stored password: the call returns `true` and `currentUser`, which was `null`,
becomes her id, e-mail, name and role, without her password.  Bob registers
there: the call returns `true` and `currentUser` becomes the four fields of
the record appended for him. -/
theorem session_fields_witness :
    sampleStoreLoggedOut.currentUser = none ∧
    sampleStoreLoggedOut.users.find? (fun u => decide (u.email = "ann@example.com"))
      = some sampleUser ∧
    ((Auth.login "ann@example.com" "secret1" sampleStoreLoggedOut).ret = true ∧
      ∃ session,
        (Auth.login "ann@example.com" "secret1" sampleStoreLoggedOut).store.currentUser
          = some session ∧
        session = [("id", "user_1"), ("email", "ann@example.com"), ("name", "Ann"),
                   ("role", "user")] ∧
        session.map Prod.fst = ["id", "email", "name", "role"] ∧
        jsGet session "id" = some "user_1" ∧
        jsGet session "email" = some "ann@example.com" ∧
        jsGet session "name" = some "Ann" ∧
        jsGet session "role" = some "user" ∧
        jsGet session "password" = none) ∧
    ((Auth.register "user_2" "t2" "Bob" "bob@example.com" "secret2"
        sampleStoreLoggedOut).ret = true ∧
      ∃ user session,
        (Auth.register "user_2" "t2" "Bob" "bob@example.com" "secret2"
          sampleStoreLoggedOut).store.users = sampleStoreLoggedOut.users ++ [user] ∧
        (Auth.register "user_2" "t2" "Bob" "bob@example.com" "secret2"
          sampleStoreLoggedOut).store.currentUser = some session ∧
        session = [("id", "user_2"), ("email", "bob@example.com"), ("name", "Bob"),
                   ("role", "user")] ∧
        session.map Prod.fst = ["id", "email", "name", "role"] ∧
        jsGet session "id" = some user.id ∧
        jsGet session "email" = some user.email ∧
        jsGet session "name" = some user.name ∧
        jsGet session "role" = some user.role ∧
        jsGet session "password" = none) :=
  ⟨by decide, by decide,
   (session_fields "ann@example.com" "secret1" "user_2" "t2" "Bob" sampleStoreLoggedOut).1
      (by decide) (by decide) (by decide) sampleUser (by decide) (by decide),
   (session_fields "bob@example.com" "secret2" "user_2" "t2" "Bob"
      sampleStoreLoggedOut).2.2.1 (by decide) (by decide) (by decide) (by decide)⟩

/-- C9. For a non-empty name, an e-mail that passes `isValidEmail`, a password
of length at least 6 and a users collection in which no record has that e-mail,
`Auth.register` returns `true`, the users collection becomes the old one with
exactly one record appended at the end (that name, e-mail and password, role
`user`), and `currentUser` becomes the id, e-mail, name and role of that record. -/
theorem register_success (newId createdAt name email password : String) (s : Store)
    (hName : name ≠ "") (hEmail : Utils.isValidEmail email = true)
    (hPassword : 6 ≤ Utils.jsLength password)
    (hFresh : ∀ u ∈ s.users, u.email ≠ email) :
    (Auth.register newId createdAt name email password s).ret = true ∧
    (Auth.register newId createdAt name email password s).store.users
      = s.users ++ [{ id := newId, name := name, email := email, password := password,
                      role := "user", createdAt := createdAt }] ∧
    (Auth.register newId createdAt name email password s).store.currentUser
      = some [("id", newId), ("email", email), ("name", name), ("role", "user")] := by
  obtain ⟨hret, hstore⟩ :=
    register_accepts newId createdAt name email password s hName hEmail hPassword hFresh
  rw [hstore]
  exact ⟨hret, rfl, rfl⟩

/-- Bob registers on `sampleStore`, which holds Ann only: his record is
appended after hers and he is logged in. -/
theorem register_success_witness :
    (Auth.register "user_2" "t2" "Bob" "bob@example.com" "secret2" sampleStore).ret = true ∧
    (Auth.register "user_2" "t2" "Bob" "bob@example.com" "secret2" sampleStore).store.users
      = [sampleUser] ++ [{ id := "user_2", name := "Bob", email := "bob@example.com",
                           password := "secret2", role := "user", createdAt := "t2" }] ∧
    (Auth.register "user_2" "t2" "Bob" "bob@example.com" "secret2" sampleStore).store.currentUser
      = some [("id", "user_2"), ("email", "bob@example.com"), ("name", "Bob"),
              ("role", "user")] :=
  register_success "user_2" "t2" "Bob" "bob@example.com" "secret2" sampleStore
    (by decide) (by decide) (by decide) (by decide)

/-! ## Route access -/

/-- C10. For every route and session state, `Auth.canAccessRoute` is truthy
exactly when the route is public; or it is a user route and somebody is logged
in; or it is an admin route and the current user has role `admin`; or it is in
none of the three lists. -/
theorem canAccessRoute_iff (route : String) (s : Store) :
    Auth.canAccessRoute route s = true ↔
      route ∈ ["/", "/products", "/categories", "/sale", "/brands"] ∨
      (route ∈ ["/cart", "/checkout", "/orders", "/wishlist", "/settings"] ∧
        s.currentUser ≠ none) ∨
      (route ∈ ["/admin", "/winter-sale"] ∧
        ∃ user, s.currentUser = some user ∧ jsGet user "role" = some "admin") ∨
      (route ∉ ["/", "/products", "/categories", "/sale", "/brands"] ∧
        route ∉ ["/cart", "/checkout", "/orders", "/wishlist", "/settings"] ∧
        route ∉ ["/admin", "/winter-sale"]) := by
  have hLogged : Auth.isLoggedIn s = true ↔ s.currentUser ≠ none := by
    simp [Auth.isLoggedIn, Option.isSome_iff_ne_none]
  have hAdmin : Auth.isAdmin s = true ↔
      ∃ user, s.currentUser = some user ∧ jsGet user "role" = some "admin" := by
    unfold Auth.isAdmin Auth.getCurrentUser
    cases s.currentUser with
    | none => simp
    | some user => simp
  by_cases h1 : route ∈ ["/", "/products", "/categories", "/sale", "/brands"]
  · have hc : ["/", "/products", "/categories", "/sale", "/brands"].contains route = true := by
      simpa using h1
    simp only [Auth.canAccessRoute, hc, if_true, true_iff]
    exact Or.inl h1
  · have hc1 : ["/", "/products", "/categories", "/sale", "/brands"].contains route = false := by
      simpa using h1
    by_cases h2 : route ∈ ["/cart", "/checkout", "/orders", "/wishlist", "/settings"]
    · have hc2 : ["/cart", "/checkout", "/orders", "/wishlist", "/settings"].contains route
          = true := by simpa using h2
      have h3 : route ∉ ["/admin", "/winter-sale"] := by
        simp only [List.mem_cons, List.mem_singleton, List.not_mem_nil, or_false] at h2 ⊢
        rcases h2 with h | h | h | h | h <;> subst h <;> decide
      simp only [Auth.canAccessRoute, hc1, hc2, if_true, Bool.false_eq_true, if_false, hLogged]
      constructor
      · intro h
        exact Or.inr (Or.inl ⟨h2, h⟩)
      · rintro (h | ⟨_, h⟩ | ⟨h, _⟩ | ⟨_, h, _⟩)
        · exact absurd h h1
        · exact h
        · exact absurd h h3
        · exact absurd h2 h
    · have hc2 : ["/cart", "/checkout", "/orders", "/wishlist", "/settings"].contains route
          = false := by simpa using h2
      by_cases h3 : route ∈ ["/admin", "/winter-sale"]
      · have hc3 : ["/admin", "/winter-sale"].contains route = true := by simpa using h3
        simp only [Auth.canAccessRoute, hc1, hc2, hc3, if_true, Bool.false_eq_true, if_false,
          hAdmin]
        constructor
        · intro h
          exact Or.inr (Or.inr (Or.inl ⟨h3, h⟩))
        · rintro (h | ⟨h, _⟩ | ⟨_, h⟩ | ⟨_, _, h⟩)
          · exact absurd h h1
          · exact absurd h h2
          · exact h
          · exact absurd h3 h
      · have hc3 : ["/admin", "/winter-sale"].contains route = false := by simpa using h3
        simp only [Auth.canAccessRoute, hc1, hc2, hc3, Bool.false_eq_true, if_false, true_iff]
        exact Or.inr (Or.inr (Or.inr ⟨h1, h2, h3⟩))

/-! ## Order status transitions -/

theorem updateFirst_split {α : Type} (p : α → Bool) (f : α → α) (before after : List α)
    (x : α) (hBefore : ∀ a ∈ before, p a = false) (hx : p x = true) :
    updateFirst p f (before ++ x :: after) = before ++ f x :: after := by
  induction before with
  | nil => simp [updateFirst, hx]
  | cons a as ih =>
    have ha : p a = false := hBefore a (List.mem_cons_self _ _)
    simp [updateFirst, ha, ih (fun b hb => hBefore b (List.mem_cons_of_mem _ hb))]

/-- The stored order that `find` returns for an id splits the collection: no
order before it has that id. -/
theorem find?_orderId_split (orders : List Order) (orderId : String) (order : Order)
    (h : orders.find? (fun o => decide (o.orderId = orderId)) = some order) :
    order.orderId = orderId ∧
    ∃ before after, orders = before ++ order :: after ∧
      ∀ o ∈ before, o.orderId ≠ orderId := by
  obtain ⟨h1, before, after, h2, h3⟩ := List.find?_eq_some.1 h
  refine ⟨by simpa using h1, before, after, h2, ?_⟩
  intro o ho
  simpa using h3 o ho

theorem find?_orderId_isSome (orders : List Order) (orderId : String) :
    (∃ order, orders.find? (fun o => decide (o.orderId = orderId)) = some order) ↔
      ∃ o ∈ orders, o.orderId = orderId := by
  rw [← Option.isSome_iff_exists, List.find?_isSome]
  simp

/-- When the stored orders have pairwise different ids, as the generated ids
do, `getOrderById` finds every stored order by its id. -/
theorem getOrderById_of_mem (s : Store) (order : Order) (hMem : order ∈ s.orders)
    (hUnique : s.orders.Pairwise (fun a b => a.orderId ≠ b.orderId)) :
    Orders.getOrderById s order.orderId = some order := by
  simp only [Orders.getOrderById, Orders.getAllOrders]
  generalize s.orders = orders at hMem hUnique
  induction orders with
  | nil => simp at hMem
  | cons x xs ih =>
    rw [List.pairwise_cons] at hUnique
    rcases List.mem_cons.1 hMem with h | h
    · subst h
      simp
    · have hne : x.orderId ≠ order.orderId := hUnique.1 order h
      simp [List.find?_cons, hne, ih h hUnique.2]

/-- The collection after the status of the first order with the given id has
been overwritten. -/
theorem updateFirst_orderStatus (orders : List Order) (orderId status : String)
    (order : Order)
    (h : orders.find? (fun o => decide (o.orderId = orderId)) = some order) :
    ∃ before after, orders = before ++ order :: after ∧
      (∀ o ∈ before, o.orderId ≠ orderId) ∧
      updateFirst (fun o => decide (o.orderId = orderId))
        (fun o => { o with orderStatus := status }) orders
        = before ++ { order with orderStatus := status } :: after := by
  obtain ⟨hid, before, after, hsplit, hbefore⟩ := find?_orderId_split orders orderId order h
  refine ⟨before, after, hsplit, hbefore, ?_⟩
  rw [hsplit]
  apply updateFirst_split
  · intro a ha
    simpa using hbefore a ha
  · simpa using hid

/-- C11. For a stored order whose status is `delivered` or `cancelled`,
`Orders.cancelOrder` called by the order's owner returns `false` and leaves the
orders collection unchanged. -/
theorem cancelOrder_terminal (orderId : String) (s : Store) (user : JObj) (order : Order)
    (hUser : Auth.getCurrentUser s = some user)
    (hFound : Orders.getOrderById s orderId = some order)
    (hOwner : order.userId = jsGet user "id")
    (hTerminal : order.orderStatus = "delivered" ∨ order.orderStatus = "cancelled") :
    (Orders.cancelOrder orderId s).ret = false ∧
    (Orders.cancelOrder orderId s).store.orders = s.orders := by
  simp only [Orders.getOrderById] at hFound
  simp [Orders.cancelOrder, hUser, hFound, hOwner, hTerminal]

/-- Ann cannot cancel her order once it is delivered. -/
theorem cancelOrder_terminal_witness :
    (Orders.cancelOrder "order_1"
      { (Orders.updateOrderStatus "order_1" "delivered" sampleStoreAdmin).store with
        currentUser := sampleStore.currentUser }).ret = false ∧
    (Orders.cancelOrder "order_1"
      { (Orders.updateOrderStatus "order_1" "delivered" sampleStoreAdmin).store with
        currentUser := sampleStore.currentUser }).store.orders
      = (Orders.updateOrderStatus "order_1" "delivered" sampleStoreAdmin).store.orders :=
  cancelOrder_terminal "order_1"
    { (Orders.updateOrderStatus "order_1" "delivered" sampleStoreAdmin).store with
      currentUser := sampleStore.currentUser }
    [("id", "user_1"), ("email", "ann@example.com"), ("name", "Ann"), ("role", "user")]
    { orderId := "order_1", userId := some "user_1", userName := some "Ann",
      userEmail := some "ann@example.com",
      products := [{ productId := 1, title := "Mouse", image := "mouse.png", quantity := 2,
                     price := 50 }],
      totalAmount := Cart.calculateTotal sampleStoreWithCart, paymentMethod := "card",
      orderStatus := "delivered", estimatedDelivery := "2024-01-04",
      createdAt := "2024-01-01" }
    rfl rfl rfl (Or.inl rfl)

/-- C12. For a stored order with status `pending` or `processing` and a
logged-in user, `Orders.cancelOrder` returns `true` exactly when the current
user's id equals the order's `userId`; when it returns `true`, that order's
status becomes `cancelled` and every other field of it and every other order is
unchanged; when it returns `false`, the orders collection is unchanged. -/
theorem cancelOrder_open (orderId : String) (s : Store) (user : JObj) (order : Order)
    (hUser : Auth.getCurrentUser s = some user)
    (hFound : Orders.getOrderById s orderId = some order)
    (hOpen : order.orderStatus = "pending" ∨ order.orderStatus = "processing") :
    ((Orders.cancelOrder orderId s).ret = true ↔ jsGet user "id" = order.userId) ∧
    ((Orders.cancelOrder orderId s).ret = true →
      ∃ before after, s.orders = before ++ order :: after ∧
        (∀ o ∈ before, o.orderId ≠ orderId) ∧
        (Orders.cancelOrder orderId s).store.orders
          = before ++ { order with orderStatus := "cancelled" } :: after) ∧
    ((Orders.cancelOrder orderId s).ret = false →
      (Orders.cancelOrder orderId s).store.orders = s.orders) := by
  simp only [Orders.getOrderById, Orders.getAllOrders] at hFound
  have hNotTerminal : ¬ (order.orderStatus = "delivered" ∨ order.orderStatus = "cancelled") := by
    rcases hOpen with h | h <;> rw [h] <;> decide
  by_cases hOwner : order.userId = jsGet user "id"
  · have hcall : Orders.cancelOrder orderId s =
        ⟨true, some ⟨"Order cancelled", "success"⟩,
          { s with orders := (updateFirst (fun o => decide (o.orderId = orderId))
              (fun o => { o with orderStatus := "cancelled" }) s.orders) }⟩ := by
      simp [Orders.cancelOrder, Orders.getAllOrders, hUser, hFound, hOwner, hNotTerminal]
    rw [hcall]
    refine ⟨by simp [hOwner], fun _ => ?_, by simp⟩
    exact updateFirst_orderStatus s.orders orderId "cancelled" order hFound
  · have hcall : Orders.cancelOrder orderId s =
        ⟨false, some ⟨"Unauthorized", "error"⟩, s⟩ := by
      simp [Orders.cancelOrder, Orders.getAllOrders, hUser, hFound, hOwner]
    rw [hcall]
    refine ⟨by simpa using fun h => hOwner h.symm, by simp, fun _ => rfl⟩

/-- Ann cancels her pending order: the call returns `true` and the stored order
is cancelled. -/
theorem cancelOrder_open_witness :
    (Orders.cancelOrder "order_1" sampleStoreOrdered).ret = true ∧
    (Orders.cancelOrder "order_1" sampleStoreOrdered).store.orders.map
      (fun o => o.orderStatus) = ["cancelled"] := by
  have h := cancelOrder_open "order_1" sampleStoreOrdered
    [("id", "user_1"), ("email", "ann@example.com"), ("name", "Ann"), ("role", "user")]
    { orderId := "order_1", userId := some "user_1", userName := some "Ann",
      userEmail := some "ann@example.com",
      products := [{ productId := 1, title := "Mouse", image := "mouse.png", quantity := 2,
                     price := 50 }],
      totalAmount := Cart.calculateTotal sampleStoreWithCart, paymentMethod := "card",
      orderStatus := "pending", estimatedDelivery := "2024-01-04",
      createdAt := "2024-01-01" }
    rfl rfl (Or.inl rfl)
  exact ⟨h.1.2 rfl, by decide⟩

/-- C13. `Orders.updateOrderStatus` returns `true` exactly when the current
session is an admin session and an order with that id exists; in that case,
for every status argument and whatever the order's current status, the status
of that order (the first with that id) afterwards is the argument and every
other order and every other field is unchanged; otherwise the orders
collection is unchanged. -/
theorem updateOrderStatus_spec (orderId status : String) (s : Store) :
    ((Orders.updateOrderStatus orderId status s).ret = true ↔
      Auth.isAdmin s = true ∧ ∃ o ∈ s.orders, o.orderId = orderId) ∧
    ((Orders.updateOrderStatus orderId status s).ret = true →
      ∃ before order after, s.orders = before ++ order :: after ∧
        order.orderId = orderId ∧ (∀ o ∈ before, o.orderId ≠ orderId) ∧
        (Orders.updateOrderStatus orderId status s).store.orders
          = before ++ { order with orderStatus := status } :: after) ∧
    ((Orders.updateOrderStatus orderId status s).ret = false →
      (Orders.updateOrderStatus orderId status s).store.orders = s.orders) := by
  by_cases hAdmin : Auth.isAdmin s = true
  · cases hFound : s.orders.find? (fun o => decide (o.orderId = orderId)) with
    | none =>
      have hcall : Orders.updateOrderStatus orderId status s =
          ⟨false, some ⟨"Order not found", "error"⟩, s⟩ := by
        simp [Orders.updateOrderStatus, Orders.getAllOrders, hAdmin, hFound]
      have hNo : ¬ ∃ o ∈ s.orders, o.orderId = orderId := by
        rw [← find?_orderId_isSome, hFound]
        simp
      rw [hcall]
      exact ⟨by simp [hNo], by simp, fun _ => rfl⟩
    | some order =>
      have hcall : Orders.updateOrderStatus orderId status s =
          ⟨true, some ⟨"Order status updated", "success"⟩,
            { s with orders := (updateFirst (fun o => decide (o.orderId = orderId))
                (fun o => { o with orderStatus := status }) s.orders) }⟩ := by
        simp [Orders.updateOrderStatus, Orders.getAllOrders, hAdmin, hFound]
      have hYes : ∃ o ∈ s.orders, o.orderId = orderId :=
        (find?_orderId_isSome s.orders orderId).1 ⟨order, hFound⟩
      rw [hcall]
      refine ⟨by simp [hAdmin, hYes], fun _ => ?_, by simp⟩
      obtain ⟨before, after, h1, h2, h3⟩ :=
        updateFirst_orderStatus s.orders orderId status order hFound
      exact ⟨before, order, after, h1, (find?_orderId_split _ _ _ hFound).1, h2, h3⟩
  · have hcall : Orders.updateOrderStatus orderId status s =
        ⟨false, some ⟨"Admin access required", "error"⟩, s⟩ := by
      simp [Orders.updateOrderStatus, hAdmin]
    rw [hcall]
    exact ⟨by simp [hAdmin], by simp, fun _ => rfl⟩

/-- The administrator reopens a cancelled order, and a user who is not an
administrator cannot change a status. -/
theorem updateOrderStatus_spec_witness :
    (Orders.updateOrderStatus "order_1" "pending"
      (Orders.updateOrderStatus "order_1" "cancelled" sampleStoreAdmin).store).ret = true ∧
    (Orders.updateOrderStatus "order_1" "pending"
      (Orders.updateOrderStatus "order_1" "cancelled" sampleStoreAdmin).store).store.orders.map
      (fun o => o.orderStatus) = ["pending"] ∧
    (Orders.updateOrderStatus "order_1" "delivered" sampleStoreOrdered).store.orders
      = sampleStoreOrdered.orders :=
  ⟨(updateOrderStatus_spec "order_1" "pending"
      (Orders.updateOrderStatus "order_1" "cancelled" sampleStoreAdmin).store).1.2
      ⟨by decide, by decide⟩,
   by decide,
   (updateOrderStatus_spec "order_1" "delivered" sampleStoreOrdered).2.2 (by decide)⟩

/-! ## The order-status invariant -/

theorem orderStatusesOk_iff (s : Store) :
    orderStatusesOk s = true ↔
      ∀ order ∈ s.orders,
        order.orderStatus ∈ ["pending", "processing", "delivered", "cancelled"] := by
  simp [orderStatusesOk, List.all_eq_true]

theorem saveUserCart_orders (s : Store) (items : List CartLine) :
    (Cart.saveUserCart items s).store.orders = s.orders := by
  unfold Cart.saveUserCart
  cases h : Auth.getCurrentUser s <;> rfl

/-- Overwriting the status of one order with one of the four statuses keeps
the invariant. -/
theorem orderStatusesOk_updateFirst (s : Store) (orderId status : String)
    (hStatus : status ∈ ["pending", "processing", "delivered", "cancelled"])
    (h : orderStatusesOk s = true) :
    orderStatusesOk
      { s with orders := (updateFirst (fun o => decide (o.orderId = orderId))
          (fun o => { o with orderStatus := status }) s.orders) } = true := by
  rw [orderStatusesOk_iff] at h ⊢
  intro order ho
  rcases mem_updateFirst _ _ _ _ ho with h1 | ⟨y, _, hy⟩
  · exact h order h1
  · subst hy
    exact hStatus

/-- What `createOrder` stores when it returns an order. -/
theorem createOrder_created (orderId estimatedDelivery createdAt : String)
    (orderData : OrderData) (s : Store) (order : Order)
    (h : (Orders.createOrder orderId estimatedDelivery createdAt orderData s).ret
      = OrderResult.created order) :
    order.orderStatus = "pending" ∧
    (Orders.createOrder orderId estimatedDelivery createdAt orderData s).store.orders
      = order :: s.orders := by
  unfold Orders.createOrder at h ⊢
  cases hu : Auth.getCurrentUser s with
  | none => simp [hu] at h
  | some user =>
    simp only [hu] at h ⊢
    by_cases hc : (Cart.getUserCart s).length = 0
    · simp [hc] at h
    · simp only [hc, if_false] at h ⊢
      cases hl : Orders.orderLines s (Cart.getUserCart s) with
      | none => simp [hl] at h
      | some lines =>
        simp only [hl, OrderResult.created.injEq] at h ⊢
        subst h
        exact ⟨rfl, by simp [Cart.clearCart, saveUserCart_orders]⟩

/-- A call of `createOrder` that returns no order leaves the storage as it was. -/
theorem createOrder_not_created (orderId estimatedDelivery createdAt : String)
    (orderData : OrderData) (s : Store)
    (h : ∀ order, (Orders.createOrder orderId estimatedDelivery createdAt orderData s).ret
      ≠ OrderResult.created order) :
    (Orders.createOrder orderId estimatedDelivery createdAt orderData s).store = s := by
  unfold Orders.createOrder at h ⊢
  cases hu : Auth.getCurrentUser s with
  | none => rfl
  | some user =>
    simp only [hu] at h ⊢
    by_cases hc : (Cart.getUserCart s).length = 0
    · simp [hc]
    · simp only [hc, if_false] at h ⊢
      cases hl : Orders.orderLines s (Cart.getUserCart s) with
      | none => rfl
      | some lines =>
        simp only [hl] at h
        exact absurd rfl (h _)

/-- C14. Every stored order has a status among `pending`, `processing`,
`delivered`, `cancelled`: an order that `Orders.createOrder` produces has status
`pending` and the call preserves the invariant; `Orders.cancelOrder` preserves
it; and `Orders.updateOrderStatus` preserves it for each of the four statuses,
the values its only caller (the status selector of the admin page) passes. -/
theorem orderStatusesOk_preserved (orderId estimatedDelivery createdAt status : String)
    (orderData : OrderData) (s : Store) (h : orderStatusesOk s = true) :
    (∀ order, (Orders.createOrder orderId estimatedDelivery createdAt orderData s).ret
        = OrderResult.created order →
      order.orderStatus ∈ ["pending", "processing", "delivered", "cancelled"]) ∧
    orderStatusesOk
      (Orders.createOrder orderId estimatedDelivery createdAt orderData s).store = true ∧
    orderStatusesOk (Orders.cancelOrder orderId s).store = true ∧
    (status ∈ ["pending", "processing", "delivered", "cancelled"] →
      orderStatusesOk (Orders.updateOrderStatus orderId status s).store = true) := by
  refine ⟨?_, ?_, ?_, ?_⟩
  · intro order ho
    rw [(createOrder_created _ _ _ _ _ _ ho).1]
    decide
  · by_cases hc : ∃ order,
        (Orders.createOrder orderId estimatedDelivery createdAt orderData s).ret
          = OrderResult.created order
    · obtain ⟨order, ho⟩ := hc
      obtain ⟨hp, hs⟩ := createOrder_created _ _ _ _ _ _ ho
      rw [orderStatusesOk_iff, hs]
      intro o hmem
      rcases List.mem_cons.1 hmem with h1 | h1
      · rw [h1, hp]
        decide
      · exact (orderStatusesOk_iff s).1 h o h1
    · rw [createOrder_not_created _ _ _ _ _ (fun order ho => hc ⟨order, ho⟩)]
      exact h
  · unfold Orders.cancelOrder
    cases hu : Auth.getCurrentUser s with
    | none => exact h
    | some user =>
      simp only [Orders.getAllOrders]
      cases hf : s.orders.find? (fun o => decide (o.orderId = orderId)) with
      | none => exact h
      | some order =>
        simp only []
        split_ifs
        · exact h
        · exact h
        · exact orderStatusesOk_updateFirst s orderId "cancelled" (by decide) h
  · intro hStatus
    unfold Orders.updateOrderStatus
    split_ifs
    · exact h
    · simp only [Orders.getAllOrders]
      cases hf : s.orders.find? (fun o => decide (o.orderId = orderId)) with
      | none => exact h
      | some order => exact orderStatusesOk_updateFirst s orderId status hStatus h

/-- On the state that holds Ann's pending order, a second order, a
cancellation and an admin update to `delivered` all keep the invariant. -/
theorem orderStatusesOk_preserved_witness :
    orderStatusesOk sampleStoreAdmin = true ∧
    orderStatusesOk
      (Orders.createOrder "order_1" "2024-01-04" "2024-01-01" ⟨"1 Main St", "card"⟩
        sampleStoreAdmin).store = true ∧
    orderStatusesOk (Orders.cancelOrder "order_1" sampleStoreAdmin).store = true ∧
    orderStatusesOk (Orders.updateOrderStatus "order_1" "delivered" sampleStoreAdmin).store
      = true :=
  have h := orderStatusesOk_preserved "order_1" "2024-01-04" "2024-01-01" "delivered"
    ⟨"1 Main St", "card"⟩ sampleStoreAdmin (by decide)
  ⟨by decide, h.2.1, h.2.2.1, h.2.2.2 (by decide)⟩

/-- The function itself does not check its status argument: called by the
administrator with a string that is not one of the four statuses, it stores
that string. -/
theorem updateOrderStatus_unchecked :
    orderStatusesOk sampleStoreAdmin = true ∧
    (Orders.updateOrderStatus "order_1" "shipped" sampleStoreAdmin).ret = true ∧
    (Orders.updateOrderStatus "order_1" "shipped" sampleStoreAdmin).store.orders.map
      (fun o => o.orderStatus) = ["shipped"] ∧
    orderStatusesOk (Orders.updateOrderStatus "order_1" "shipped" sampleStoreAdmin).store
      = false := by
  decide

/-! ## Order creation -/

/-- The entries `createOrder` builds match the cart lines one by one, in
order: product id and quantity from the line, title, image and price from the
catalog product. -/
theorem orderLines_forall₂ (s : Store) (items : List CartLine) (lines : List OrderLine)
    (h : Orders.orderLines s items = some lines) :
    List.Forall₂
      (fun item entry =>
        entry.productId = item.productId ∧ entry.quantity = item.quantity ∧
        ∃ product, Products.getProductById s item.productId = some product ∧
          entry.title = product.title ∧ entry.image = product.image ∧
          entry.price = product.price)
      items lines := by
  induction items generalizing lines with
  | nil =>
    simp [Orders.orderLines] at h
    subst h
    exact List.Forall₂.nil
  | cons x xs ih =>
    cases hp : Products.getProductById s x.productId with
    | none => simp [Orders.orderLines, hp] at h
    | some product =>
      cases hr : Orders.orderLines s xs with
      | none => simp [Orders.orderLines, hp, hr] at h
      | some rest =>
        simp [Orders.orderLines, hp, hr] at h
        subst h
        exact List.Forall₂.cons ⟨rfl, rfl, product, hp, rfl, rfl, rfl⟩ (ih rest hr)

theorem sample_calculateTotal : Cart.calculateTotal sampleStoreWithCart = 100 := by
  have hcart : Cart.getUserCart sampleStoreWithCart = [{ productId := 1, quantity := 2 }] := by
    decide
  have hprod : Products.getProductById sampleStoreWithCart 1 = some sampleProduct := by
    decide
  rw [calculateTotal_eq_sum, hcart]
  simp only [List.map_cons, List.map_nil, List.sum_cons, List.sum_nil, Cart.lineAmount, hprod]
  norm_num [sampleProduct]

/-- C15. For a logged-in user with a non-empty cart of catalog products,
`Orders.createOrder` succeeds and afterwards the orders collection is the new
order followed by the previous orders in their previous order; the new order
has status `pending`, the current user's id, name and e-mail, and one `products`
entry per cart line in cart order; and the user's cart is empty.  With no
session or an empty cart, `createOrder` returns `false` and leaves the orders
collection and the cart unchanged. -/
theorem createOrder_effects (orderId estimatedDelivery createdAt : String)
    (orderData : OrderData) (s : Store) :
    (∀ user, Auth.getCurrentUser s = some user → Cart.getUserCart s ≠ [] →
      (∀ item ∈ Cart.getUserCart s,
        (Products.getProductById s item.productId).isSome = true) →
      ∃ order,
        (Orders.createOrder orderId estimatedDelivery createdAt orderData s).ret
          = OrderResult.created order ∧
        (Orders.createOrder orderId estimatedDelivery createdAt orderData s).store.orders
          = order :: s.orders ∧
        order.orderStatus = "pending" ∧
        order.userId = jsGet user "id" ∧
        order.userName = jsGet user "name" ∧
        order.userEmail = jsGet user "email" ∧
        List.Forall₂
          (fun item entry =>
            entry.productId = item.productId ∧ entry.quantity = item.quantity ∧
            ∃ product, Products.getProductById s item.productId = some product ∧
              entry.title = product.title ∧ entry.image = product.image ∧
              entry.price = product.price)
          (Cart.getUserCart s) order.products ∧
        Cart.getUserCart
          (Orders.createOrder orderId estimatedDelivery createdAt orderData s).store = []) ∧
    ((Auth.getCurrentUser s = none ∨ Cart.getUserCart s = []) →
      (Orders.createOrder orderId estimatedDelivery createdAt orderData s).ret
        = OrderResult.refused ∧
      (Orders.createOrder orderId estimatedDelivery createdAt orderData s).store.orders
        = s.orders ∧
      (Orders.createOrder orderId estimatedDelivery createdAt orderData s).store.cart
        = s.cart) := by
  constructor
  · intro user hu hCart hCat
    obtain ⟨lines, hl⟩ := orderLines_isSome s (Cart.getUserCart s) hCat
    simp only [Orders.createOrder, hu, hl, List.length_eq_zero, hCart, if_false]
    refine ⟨_, rfl, ?_, rfl, rfl, rfl, rfl, orderLines_forall₂ s _ _ hl, ?_⟩
    · simp [Cart.clearCart, saveUserCart_orders]
    · apply getUserCart_saveUserCart
      simpa [Auth.isLoggedIn, Auth.getCurrentUser] using congrArg Option.isSome hu
  · intro h
    cases hu : Auth.getCurrentUser s with
    | none => simp [Orders.createOrder, hu]
    | some user =>
      have hCart : Cart.getUserCart s = [] := by
        rcases h with h | h
        · rw [hu] at h
          exact absurd h (by simp)
        · exact h
      simp [Orders.createOrder, hu, hCart]

/-- Ann's cart of two mice becomes a pending order in her name and her cart is
emptied; with an empty cart `createOrder` is refused. -/
theorem createOrder_effects_witness :
    (∃ order,
      (Orders.createOrder "order_1" "2024-01-04" "2024-01-01" ⟨"1 Main St", "card"⟩
        sampleStoreWithCart).ret = OrderResult.created order ∧
      (Orders.createOrder "order_1" "2024-01-04" "2024-01-01" ⟨"1 Main St", "card"⟩
        sampleStoreWithCart).store.orders = order :: sampleStoreWithCart.orders ∧
      order.orderStatus = "pending" ∧
      order.userId = some "user_1" ∧
      Cart.getUserCart (Orders.createOrder "order_1" "2024-01-04" "2024-01-01"
        ⟨"1 Main St", "card"⟩ sampleStoreWithCart).store = []) ∧
    (Orders.createOrder "order_1" "2024-01-04" "2024-01-01" ⟨"1 Main St", "card"⟩
      sampleStore).ret = OrderResult.refused := by
  obtain ⟨order, h1, h2, h3, h4, _, _, _, h8⟩ :=
    (createOrder_effects "order_1" "2024-01-04" "2024-01-01" ⟨"1 Main St", "card"⟩
      sampleStoreWithCart).1
      [("id", "user_1"), ("email", "ann@example.com"), ("name", "Ann"), ("role", "user")]
      rfl (by decide) (by decide)
  exact ⟨⟨order, h1, h2, h3, h4, h8⟩,
    ((createOrder_effects "order_1" "2024-01-04" "2024-01-01" ⟨"1 Main St", "card"⟩
      sampleStore).2 (Or.inr (by decide))).1⟩

/-! ## Orders do not read the catalog -/

/-- C16. Stored orders do not change when the products collection changes: for
two stores that agree on the `orders` key (and may differ in `products`),
`Orders.getAllOrders` and `Orders.getOrderById` return equal results. -/
theorem orders_independent_of_products (s1 s2 : Store) (orderId : String)
    (h : s1.orders = s2.orders) :
    Orders.getAllOrders s1 = Orders.getAllOrders s2 ∧
    Orders.getOrderById s1 orderId = Orders.getOrderById s2 orderId := by
  simp [Orders.getOrderById, Orders.getAllOrders, h]

/-- An order created with price 50 and quantity 2 still has total 100, and its
line still has price 50, after the product's price has become 40. -/
theorem orders_independent_of_products_witness :
    (Products.getProductById sampleStoreRepriced 1).map (fun p => p.price) = some 40 ∧
    Orders.getAllOrders sampleStoreRepriced = Orders.getAllOrders sampleStoreOrdered ∧
    Orders.getOrderById sampleStoreRepriced "order_1"
      = Orders.getOrderById sampleStoreOrdered "order_1" ∧
    (Orders.getOrderById sampleStoreRepriced "order_1").map (fun o => o.totalAmount)
      = some 100 ∧
    (Orders.getOrderById sampleStoreRepriced "order_1").map
      (fun o => o.products.map (fun entry => (entry.title, entry.price, entry.quantity)))
      = some [("Mouse", 50, 2)] := by
  have h := orders_independent_of_products sampleStoreRepriced sampleStoreOrdered "order_1" rfl
  have hget : (Orders.getOrderById sampleStoreRepriced "order_1").map (fun o => o.totalAmount)
      = some (Cart.calculateTotal sampleStoreWithCart) := rfl
  refine ⟨rfl, h.1, h.2, ?_, rfl⟩
  rw [hget, sample_calculateTotal]

/-! ## Wishlist toggle -/

/-- With a session, the wishlist read back after `saveUserWishlist` is the
saved one. -/
theorem getUserWishlist_saveUserWishlist (s : Store) (items : List Nat)
    (h : Auth.isLoggedIn s = true) :
    Wishlist.getUserWishlist (Wishlist.saveUserWishlist items s).store = items := by
  obtain ⟨user, hu⟩ := (isLoggedIn_iff s).1 h
  simp only [Auth.getCurrentUser] at hu
  simp [Wishlist.saveUserWishlist, Wishlist.getUserWishlist, Auth.getCurrentUser, hu,
    jsGet_jsSet_self]

theorem saveUserWishlist_isLoggedIn (s : Store) (items : List Nat) :
    Auth.isLoggedIn (Wishlist.saveUserWishlist items s).store = Auth.isLoggedIn s := by
  unfold Wishlist.saveUserWishlist
  cases h : Auth.getCurrentUser s <;> rfl

/-- What one `toggle` does to the wishlist of the logged-in user: a member is
filtered out, a non-member is added last. -/
theorem toggle_wishlist (productId : Nat) (s : Store) (hLogin : Auth.isLoggedIn s = true) :
    Auth.isLoggedIn (Wishlist.toggle productId s).store = true ∧
    Wishlist.getUserWishlist (Wishlist.toggle productId s).store =
      if (Wishlist.getUserWishlist s).contains productId then
        (Wishlist.getUserWishlist s).filter (fun id => id != productId)
      else Wishlist.getUserWishlist s ++ [productId] := by
  by_cases hc : productId ∈ Wishlist.getUserWishlist s
  · have hstore : (Wishlist.toggle productId s).store =
        (Wishlist.saveUserWishlist
          ((Wishlist.getUserWishlist s).filter (fun id => id != productId)) s).store := by
      simp [Wishlist.toggle, Wishlist.remove, Auth.requireLogin, hLogin, hc]
    rw [hstore, saveUserWishlist_isLoggedIn, getUserWishlist_saveUserWishlist s _ hLogin]
    simp [hLogin, hc]
  · have hstore : (Wishlist.toggle productId s).store =
        (Wishlist.saveUserWishlist (Wishlist.getUserWishlist s ++ [productId]) s).store := by
      simp [Wishlist.toggle, Wishlist.add, Auth.requireLogin, hLogin, hc]
    rw [hstore, saveUserWishlist_isLoggedIn, getUserWishlist_saveUserWishlist s _ hLogin]
    simp [hLogin, hc]

/-- C17. For a logged-in user, after `Wishlist.toggle` has been called twice in
succession with the same product id, that id is in the user's wishlist if and
only if it was before the two calls; the same holds for every other id. -/
theorem toggle_twice_membership (productId : Nat) (s : Store)
    (hLogin : Auth.isLoggedIn s = true) :
    (productId ∈ Wishlist.getUserWishlist
        (Wishlist.toggle productId (Wishlist.toggle productId s).store).store ↔
      productId ∈ Wishlist.getUserWishlist s) ∧
    ∀ other, other ∈ Wishlist.getUserWishlist
        (Wishlist.toggle productId (Wishlist.toggle productId s).store).store ↔
      other ∈ Wishlist.getUserWishlist s := by
  have key : ∀ other, other ∈ Wishlist.getUserWishlist
      (Wishlist.toggle productId (Wishlist.toggle productId s).store).store ↔
      other ∈ Wishlist.getUserWishlist s := by
    intro other
    obtain ⟨hLogin1, h1⟩ := toggle_wishlist productId s hLogin
    obtain ⟨_, h2⟩ := toggle_wishlist productId (Wishlist.toggle productId s).store hLogin1
    rw [h2, h1]
    by_cases hc : productId ∈ Wishlist.getUserWishlist s
    · have hc1 : (Wishlist.getUserWishlist s).contains productId = true := by simpa using hc
      simp only [hc1, if_true]
      by_cases ho : other = productId
      · subst ho
        simp [hc]
      · simp [ho]
    · have hc1 : (Wishlist.getUserWishlist s).contains productId = false := by simpa using hc
      simp only [hc1, Bool.false_eq_true, if_false]
      by_cases ho : other = productId
      · subst ho
        simp [hc]
      · simp [ho]
  exact ⟨key productId, key⟩

/-- Ann toggles product 1 twice: it was not in her wishlist and is not in it
afterwards, though it is after the first call. -/
theorem toggle_twice_membership_witness :
    1 ∈ Wishlist.getUserWishlist (Wishlist.toggle 1 sampleStore).store ∧
    (1 ∈ Wishlist.getUserWishlist
        (Wishlist.toggle 1 (Wishlist.toggle 1 sampleStore).store).store ↔
      1 ∈ Wishlist.getUserWishlist sampleStore) :=
  ⟨by decide, (toggle_twice_membership 1 sampleStore (by decide)).1⟩

/-! ## Quantity below one -/

/-- C18. For every stored state, product id and quantity `q < 1`,
`Cart.updateQuantity id q` leaves the storage in exactly the state that
`Cart.removeItem id` leaves: the user's cart is the old one without the lines
for `id`, the other lines unchanged and in the same order. -/
theorem updateQuantity_below_one (productId : Nat) (q : Int) (s : Store) (hq : q < 1) :
    (Cart.updateQuantity productId q s).store = (Cart.removeItem productId s).store ∧
    Cart.getUserCart (Cart.updateQuantity productId q s).store
      = (Cart.getUserCart s).filter (fun item => item.productId != productId) := by
  have hstore : (Cart.updateQuantity productId q s).store = (Cart.removeItem productId s).store := by
    simp [Cart.updateQuantity, hq]
  refine ⟨hstore, ?_⟩
  rw [hstore]
  cases hu : Auth.getCurrentUser s with
  | none => simp [Cart.removeItem, Cart.saveUserCart, Cart.getUserCart, hu]
  | some user =>
    have hLogin : Auth.isLoggedIn s = true := (isLoggedIn_iff s).2 ⟨user, hu⟩
    simp only [Cart.removeItem]
    exact getUserCart_saveUserCart s _ hLogin

/-- Setting the quantity of product 1 to 0 in Ann's cart of two mice empties
the cart, as removing product 1 does. -/
theorem updateQuantity_below_one_witness :
    (Cart.updateQuantity 1 0 sampleStoreWithCart).store
      = (Cart.removeItem 1 sampleStoreWithCart).store ∧
    Cart.getUserCart (Cart.updateQuantity 1 0 sampleStoreWithCart).store = [] :=
  ⟨(updateQuantity_below_one 1 0 sampleStoreWithCart (by decide)).1, by decide⟩

/-! ## No anonymous cart or wishlist -/

/-- C19. When no user is logged in, each of `Cart.addItem`, `Cart.removeItem`,
`Cart.updateQuantity`, `Cart.clearCart`, `Wishlist.add`, `Wishlist.remove` and
`Wishlist.toggle`, for every argument, leaves the stored `cart` and `wishlist`
mappings unchanged. -/
theorem mutators_need_session (productId : Nat) (quantity : Int) (s : Store)
    (hNone : Auth.getCurrentUser s = none) :
    ((Cart.addItem productId quantity s).store.cart = s.cart ∧
      (Cart.addItem productId quantity s).store.wishlist = s.wishlist) ∧
    ((Cart.removeItem productId s).store.cart = s.cart ∧
      (Cart.removeItem productId s).store.wishlist = s.wishlist) ∧
    ((Cart.updateQuantity productId quantity s).store.cart = s.cart ∧
      (Cart.updateQuantity productId quantity s).store.wishlist = s.wishlist) ∧
    ((Cart.clearCart s).store.cart = s.cart ∧
      (Cart.clearCart s).store.wishlist = s.wishlist) ∧
    ((Wishlist.add productId s).store.cart = s.cart ∧
      (Wishlist.add productId s).store.wishlist = s.wishlist) ∧
    ((Wishlist.remove productId s).store.cart = s.cart ∧
      (Wishlist.remove productId s).store.wishlist = s.wishlist) ∧
    ((Wishlist.toggle productId s).store.cart = s.cart ∧
      (Wishlist.toggle productId s).store.wishlist = s.wishlist) := by
  have hLogin : Auth.isLoggedIn s = false := by
    simp only [Auth.getCurrentUser] at hNone
    simp [Auth.isLoggedIn, hNone]
  have hSaveCart : ∀ items, (Cart.saveUserCart items s).store = s := by
    intro items
    simp [Cart.saveUserCart, hNone]
  have hSaveWish : ∀ items, (Wishlist.saveUserWishlist items s).store = s := by
    intro items
    simp [Wishlist.saveUserWishlist, hNone]
  have hCart : Cart.getUserCart s = [] := by simp [Cart.getUserCart, hNone]
  have hAdd : (Cart.addItem productId quantity s).store = s := by
    simp [Cart.addItem, Auth.requireLogin, hLogin]
  have hRemove : (Cart.removeItem productId s).store = s := by
    simp [Cart.removeItem, hSaveCart]
  have hUpdate : (Cart.updateQuantity productId quantity s).store = s := by
    unfold Cart.updateQuantity
    by_cases hq : quantity < 1
    · simp [hq, hRemove]
    · simp [hq, hCart]
  have hClear : (Cart.clearCart s).store = s := by
    simp [Cart.clearCart, hSaveCart]
  have hWAdd : (Wishlist.add productId s).store = s := by
    simp [Wishlist.add, Auth.requireLogin, hLogin]
  have hWRemove : (Wishlist.remove productId s).store = s := by
    simp [Wishlist.remove, hSaveWish]
  have hWToggle : (Wishlist.toggle productId s).store = s := by
    simp [Wishlist.toggle, Auth.requireLogin, hLogin]
  rw [hAdd, hRemove, hUpdate, hClear, hWAdd, hWRemove, hWToggle]
  simp

/-- With nobody logged in, adding product 1 to the cart and toggling it in the
wishlist leave both mappings of `sampleStoreLoggedOut` as they were. -/
theorem mutators_need_session_witness :
    (Cart.addItem 1 2 sampleStoreLoggedOut).store.cart = sampleStoreLoggedOut.cart ∧
    (Wishlist.toggle 1 sampleStoreLoggedOut).store.wishlist = sampleStoreLoggedOut.wishlist :=
  have h := mutators_need_session 1 2 sampleStoreLoggedOut rfl
  ⟨h.1.1, h.2.2.2.2.2.2.2⟩


/-! ## Default sort order -/

theorem sortProducts_default_eq (getProductStats : Nat → ProductStats)
    (localeCompare : String → String → Rat) (products : List Product) :
    Products.sortProducts getProductStats localeCompare products "default"
      = arraySort (Products.defaultCompare getProductStats) products := by
  simp [Products.sortProducts]

theorem isTopRated_iff (stats : ProductStats) :
    Products.isTopRated stats = true ↔ 4.5 ≤ stats.rating ∧ 2 ≤ stats.count := by
  simp [Products.isTopRated]

/-- The default comparison puts `a` no later than `b` exactly when `a` is ahead
in the order: top-rated first, then tagged `new`, then higher score. -/
theorem defaultCompare_le_iff (getProductStats : Nat → ProductStats) (a b : Product) :
    Products.defaultCompare getProductStats a b ≤ 0 ↔
      (Products.isTopRated (getProductStats a.id) = true ∧
        Products.isTopRated (getProductStats b.id) = false) ∨
      (Products.isTopRated (getProductStats a.id) = Products.isTopRated (getProductStats b.id) ∧
        ((a.tags.contains "new" = true ∧ b.tags.contains "new" = false) ∨
         (a.tags.contains "new" = b.tags.contains "new" ∧
          (getProductStats b.id).score ≤ (getProductStats a.id).score))) := by
  unfold Products.defaultCompare
  dsimp only
  generalize Products.isTopRated (getProductStats a.id) = ta
  generalize Products.isTopRated (getProductStats b.id) = tb
  generalize a.tags.contains "new" = na
  generalize b.tags.contains "new" = nb
  cases ta <;> cases tb <;> cases na <;> cases nb <;> simp

theorem defaultCompare_total (getProductStats : Nat → ProductStats) (a b : Product) :
    Products.defaultCompare getProductStats a b ≤ 0 ∨
      Products.defaultCompare getProductStats b a ≤ 0 := by
  rw [defaultCompare_le_iff, defaultCompare_le_iff]
  generalize Products.isTopRated (getProductStats a.id) = ta
  generalize Products.isTopRated (getProductStats b.id) = tb
  generalize a.tags.contains "new" = na
  generalize b.tags.contains "new" = nb
  have := le_total (getProductStats a.id).score (getProductStats b.id).score
  cases ta <;> cases tb <;> cases na <;> cases nb <;> simp <;> tauto

theorem defaultCompare_trans (getProductStats : Nat → ProductStats) (a b c : Product)
    (hab : Products.defaultCompare getProductStats a b ≤ 0)
    (hbc : Products.defaultCompare getProductStats b c ≤ 0) :
    Products.defaultCompare getProductStats a c ≤ 0 := by
  rw [defaultCompare_le_iff] at hab hbc ⊢
  generalize Products.isTopRated (getProductStats a.id) = ta at *
  generalize Products.isTopRated (getProductStats b.id) = tb at *
  generalize Products.isTopRated (getProductStats c.id) = tc at *
  generalize a.tags.contains "new" = na at *
  generalize b.tags.contains "new" = nb at *
  generalize c.tags.contains "new" = nc at *
  cases ta <;> cases tb <;> cases tc <;> cases na <;> cases nb <;> cases nc <;>
    simp at hab hbc ⊢ <;> exact le_trans hbc hab

theorem sorted_arraySort_default (getProductStats : Nat → ProductStats)
    (products : List Product) :
    (arraySort (Products.defaultCompare getProductStats) products).Pairwise
      (fun a b => Products.defaultCompare getProductStats a b ≤ 0) :=
  @List.sorted_insertionSort Product
    (fun a b => Products.defaultCompare getProductStats a b ≤ 0) _
    ⟨defaultCompare_total getProductStats⟩ ⟨defaultCompare_trans getProductStats⟩ products


theorem perm_two {α : Type} (b c : α) (l : List α) (h : l.Perm [b, c]) :
    l = [b, c] ∨ l = [c, b] := by
  have hlen := h.length_eq
  match l, hlen with
  | [y, z], _ =>
    have hy : y ∈ [b, c] := h.subset (List.mem_cons_self _ _)
    simp only [List.mem_cons, List.mem_singleton, List.not_mem_nil, or_false] at hy
    rcases hy with rfl | rfl
    · have h1 : [z].Perm [c] := (List.perm_cons y).1 h
      rw [List.perm_singleton.1 h1]
      exact Or.inl rfl
    · have h1 : [z].Perm [b] := (List.perm_cons y).1 (h.trans (List.Perm.swap y b []))
      rw [List.perm_singleton.1 h1]
      exact Or.inr rfl

theorem perm_three {α : Type} (a b c : α) (l : List α) (h : l.Perm [a, b, c]) :
    l = [a, b, c] ∨ l = [a, c, b] ∨ l = [b, a, c] ∨ l = [b, c, a] ∨
      l = [c, a, b] ∨ l = [c, b, a] := by
  have hlen := h.length_eq
  match l, hlen with
  | [x, y, z], _ =>
    have hx : x ∈ [a, b, c] := h.subset (List.mem_cons_self _ _)
    simp only [List.mem_cons, List.mem_singleton, List.not_mem_nil, or_false] at hx
    rcases hx with rfl | rfl | rfl
    · rcases perm_two b c [y, z] ((List.perm_cons x).1 h) with h1 | h1
      · rw [h1]; simp
      · rw [h1]; simp
    · have h0 : [x, y, z].Perm [x, a, c] := h.trans (List.Perm.swap x a [c])
      rcases perm_two a c [y, z] ((List.perm_cons x).1 h0) with h1 | h1
      · rw [h1]; simp
      · rw [h1]; simp
    · have h0 : [x, y, z].Perm [x, a, b] :=
        h.trans (@List.perm_middle _ x [a, b] [])
      rcases perm_two a b [y, z] ((List.perm_cons x).1 h0) with h1 | h1
      · rw [h1]; simp
      · rw [h1]; simp

/-- C20. In the list `Products.sortProducts` returns in the default mode, which
is a rearrangement of the input: no product that is not top-rated (stats rating
at least 4.5 and count at least 2) precedes one that is; among products of the
same top-rated status, none without the tag `new` precedes one with it; among
products equal in both, scores are non-increasing.  In particular, if A is
top-rated, B and C are not, B is tagged `new` and C is not, every arrangement
of A, B, C is returned as A, B, C. -/
theorem sortProducts_default (getProductStats : Nat → ProductStats)
    (localeCompare : String → String → Rat) (products : List Product)
    (top isNew : Product → Prop)
    (hTop : ∀ p, top p ↔
      4.5 ≤ (getProductStats p.id).rating ∧ 2 ≤ (getProductStats p.id).count)
    (hNew : ∀ p, isNew p ↔ "new" ∈ p.tags) :
    (Products.sortProducts getProductStats localeCompare products "default").Perm products ∧
    (Products.sortProducts getProductStats localeCompare products "default").Pairwise
      (fun a b => top b → top a) ∧
    (Products.sortProducts getProductStats localeCompare products "default").Pairwise
      (fun a b => (top a ↔ top b) → isNew b → isNew a) ∧
    (Products.sortProducts getProductStats localeCompare products "default").Pairwise
      (fun a b => (top a ↔ top b) → (isNew a ↔ isNew b) →
        (getProductStats b.id).score ≤ (getProductStats a.id).score) ∧
    (∀ A B C : Product, top A → ¬ top B → ¬ top C → isNew B → ¬ isNew C →
      ∀ input : List Product, input.Perm [A, B, C] →
        Products.sortProducts getProductStats localeCompare input "default" = [A, B, C]) := by
  have hTopB : ∀ p, Products.isTopRated (getProductStats p.id) = true ↔ top p := by
    intro p
    rw [hTop, isTopRated_iff]
  have hNewB : ∀ p, p.tags.contains "new" = true ↔ isNew p := by
    intro p
    rw [hNew]
    simp
  have hle : ∀ a b, Products.defaultCompare getProductStats a b ≤ 0 ↔
      (top a ∧ ¬ top b) ∨ ((top a ↔ top b) ∧ ((isNew a ∧ ¬ isNew b) ∨
        ((isNew a ↔ isNew b) ∧
          (getProductStats b.id).score ≤ (getProductStats a.id).score))) := by
    intro a b
    rw [defaultCompare_le_iff, ← hTopB a, ← hTopB b, ← hNewB a, ← hNewB b]
    generalize Products.isTopRated (getProductStats a.id) = ta
    generalize Products.isTopRated (getProductStats b.id) = tb
    generalize a.tags.contains "new" = na
    generalize b.tags.contains "new" = nb
    cases ta <;> cases tb <;> cases na <;> cases nb <;> simp
  have hsorted := sorted_arraySort_default getProductStats products
  simp only [sortProducts_default_eq]
  refine ⟨List.perm_insertionSort _ products, ?_, ?_, ?_, ?_⟩
  · refine hsorted.imp ?_
    intro a b hab hb
    rcases (hle a b).1 hab with h | h
    · exact h.1
    · exact h.1.2 hb
  · refine hsorted.imp ?_
    intro a b hab hsame hb
    rcases (hle a b).1 hab with h | h
    · exact absurd (hsame.1 h.1) h.2
    · rcases h.2 with h2 | h2
      · exact h2.1
      · exact h2.1.2 hb
  · refine hsorted.imp ?_
    intro a b hab hsame hnew
    rcases (hle a b).1 hab with h | h
    · exact absurd (hsame.1 h.1) h.2
    · rcases h.2 with h2 | h2
      · exact absurd (hnew.1 h2.1) h2.2
      · exact h2.2
  · intro A B C hA hB hC hNB hNC input hperm
    have hAB : Products.defaultCompare getProductStats A B ≤ 0 :=
      (hle A B).2 (Or.inl ⟨hA, hB⟩)
    have hAC : Products.defaultCompare getProductStats A C ≤ 0 :=
      (hle A C).2 (Or.inl ⟨hA, hC⟩)
    have hBC : Products.defaultCompare getProductStats B C ≤ 0 :=
      (hle B C).2 (Or.inr ⟨by tauto, Or.inl ⟨hNB, hNC⟩⟩)
    have hBA : ¬ Products.defaultCompare getProductStats B A ≤ 0 := by
      rw [hle]
      tauto
    have hCA : ¬ Products.defaultCompare getProductStats C A ≤ 0 := by
      rw [hle]
      tauto
    have hCB : ¬ Products.defaultCompare getProductStats C B ≤ 0 := by
      rw [hle]
      tauto
    rcases perm_three A B C input hperm with h | h | h | h | h | h <;> subst h <;>
      simp [arraySort, List.insertionSort, List.orderedInsert, hAB, hAC, hBC, hBA, hCA, hCB]

/-- The example with concrete stats: A has rating 4.8, count 5, score 9; B is
tagged `new` and has score 3; C has no tags and score 5.  Every input order
gives A, B, C. -/
theorem sortProducts_default_witness :
    Products.sortProducts sortStats (fun _ _ => 0) [sortA, sortB, sortC] "default"
      = [sortA, sortB, sortC] ∧
    Products.sortProducts sortStats (fun _ _ => 0) [sortA, sortC, sortB] "default"
      = [sortA, sortB, sortC] ∧
    Products.sortProducts sortStats (fun _ _ => 0) [sortB, sortA, sortC] "default"
      = [sortA, sortB, sortC] ∧
    Products.sortProducts sortStats (fun _ _ => 0) [sortB, sortC, sortA] "default"
      = [sortA, sortB, sortC] ∧
    Products.sortProducts sortStats (fun _ _ => 0) [sortC, sortA, sortB] "default"
      = [sortA, sortB, sortC] ∧
    Products.sortProducts sortStats (fun _ _ => 0) [sortC, sortB, sortA] "default"
      = [sortA, sortB, sortC] := by
  have h := (sortProducts_default sortStats (fun _ _ => 0) []
    (fun p => 4.5 ≤ (sortStats p.id).rating ∧ 2 ≤ (sortStats p.id).count)
    (fun p => "new" ∈ p.tags) (fun _ => Iff.rfl) (fun _ => Iff.rfl)).2.2.2.2
    sortA sortB sortC
    (by norm_num [sortStats, sortA]) (by norm_num [sortStats, sortB])
    (by norm_num [sortStats, sortC]) (by decide) (by decide)
  refine ⟨h _ (List.Perm.refl _), h _ ?_, h _ ?_, h _ ?_, h _ ?_, h _ ?_⟩
  · exact (List.Perm.swap sortB sortC []).cons sortA
  · exact List.Perm.swap sortA sortB [sortC]
  · exact @List.perm_middle _ sortA [sortB, sortC] []
  · exact (@List.perm_middle _ sortC [sortA, sortB] []).symm
  · exact ((List.Perm.swap sortA sortB []).cons sortC).trans
      (@List.perm_middle _ sortC [sortA, sortB] []).symm

/-! ## Product stats -/

/-- With fuel `n` the halvings find the binary logarithm of `n`. -/
theorem log2Floor_spec (fuel n : Nat) (hfuel : n ≤ fuel) (hn : 0 < n) :
    2 ^ Utils.log2Floor fuel n ≤ n ∧ n < 2 ^ (Utils.log2Floor fuel n + 1) := by
  induction fuel generalizing n with
  | zero => omega
  | succ fuel ih =>
    unfold Utils.log2Floor
    by_cases h2 : 2 ≤ n
    · rw [if_pos h2]
      obtain ⟨h1, h3⟩ := ih (n / 2) (by omega) (by omega)
      constructor
      · rw [pow_succ]; omega
      · rw [pow_succ]; omega
    · rw [if_neg h2]
      constructor <;> simp <;> omega

/-- A power of two with an integer exponent, from the two natural exponents
that `divDouble` uses. -/
theorem two_zpow_eq (z : Int) :
    (2 : Rat) ^ z = (2 : Rat) ^ z.toNat / (2 : Rat) ^ (-z).toNat := by
  rcases le_total 0 z with h | h
  · have h1 : (-z).toNat = 0 := by omega
    rw [h1, pow_zero, div_one, ← zpow_natCast, Int.toNat_of_nonneg h]
  · have h1 : z.toNat = 0 := by omega
    have h2 : z = -(((-z).toNat : Nat) : Int) := by omega
    rw [h1, pow_zero, one_div, ← zpow_natCast, ← zpow_neg, ← h2]


/-- The rounding step of `divDouble`: `m` is an integer nearest to `num / den`,
and the even one when two are. -/
theorem round_half_even (num den : Nat) (hden : 0 < den) :
    let q := num / den
    let r := num % den
    let m := if den < 2 * r ∨ (2 * r = den ∧ q % 2 = 1) then q + 1 else q
    q ≤ m ∧ m ≤ q + 1 ∧
    |(m : Rat) - (num : Rat) / (den : Rat)| ≤ 1 / 2 ∧
    (|(m : Rat) - (num : Rat) / (den : Rat)| = 1 / 2 → m % 2 = 0) := by
  intro q r m
  have hdenQ : (0 : Rat) < (den : Rat) := by exact_mod_cast hden
  have hr : r < den := Nat.mod_lt _ hden
  have hsplit : (num : Rat) / (den : Rat) = (q : Rat) + (r : Rat) / (den : Rat) := by
    have h : den * q + r = num := Nat.div_add_mod num den
    have h2 : (num : Rat) = (den : Rat) * (q : Rat) + (r : Rat) := by exact_mod_cast h.symm
    rw [h2]
    field_simp
    ring
  have hrQ : (r : Rat) < (den : Rat) := by exact_mod_cast hr
  have hr0 : (0 : Rat) ≤ (r : Rat) := by positivity
  by_cases hc : den < 2 * r ∨ (2 * r = den ∧ q % 2 = 1)
  · have hm : m = q + 1 := if_pos hc
    have hge : (den : Rat) ≤ 2 * (r : Rat) := by
      rcases hc with h | h
      · exact_mod_cast h.le
      · exact_mod_cast h.1.ge
    have hdiff : (m : Rat) - (num : Rat) / (den : Rat) = 1 - (r : Rat) / (den : Rat) := by
      rw [hm, hsplit]; push_cast; ring
    have h1 : (1 : Rat) / 2 ≤ (r : Rat) / (den : Rat) := by
      rw [le_div_iff₀ hdenQ]; linarith
    have h2 : (r : Rat) / (den : Rat) < 1 := by
      rw [div_lt_one hdenQ]; exact hrQ
    have habs : |(m : Rat) - (num : Rat) / (den : Rat)| = 1 - (r : Rat) / (den : Rat) := by
      rw [hdiff, abs_of_nonneg (by linarith)]
    refine ⟨by omega, by omega, by rw [habs]; linarith, ?_⟩
    intro htie
    rw [habs] at htie
    have hhalf : (r : Rat) / (den : Rat) = 1 / 2 := by linarith
    rw [div_eq_div_iff hdenQ.ne.symm (by norm_num)] at hhalf
    have hNat : r * 2 = 1 * den := by exact_mod_cast hhalf
    rcases hc with h | h
    · omega
    · omega
  · have hm : m = q := if_neg hc
    have hle : 2 * (r : Rat) ≤ (den : Rat) := by
      have : 2 * r ≤ den := by
        by_contra h
        exact hc (Or.inl (by omega))
      exact_mod_cast this
    have hdiff : (m : Rat) - (num : Rat) / (den : Rat) = -((r : Rat) / (den : Rat)) := by
      rw [hm, hsplit]; ring
    have h0 : (0 : Rat) ≤ (r : Rat) / (den : Rat) := div_nonneg hr0 hdenQ.le
    have h1 : (r : Rat) / (den : Rat) ≤ 1 / 2 := by
      rw [div_le_iff₀ hdenQ]; linarith
    have habs : |(m : Rat) - (num : Rat) / (den : Rat)| = (r : Rat) / (den : Rat) := by
      rw [hdiff, abs_neg, abs_of_nonneg h0]
    refine ⟨by omega, by omega, by rw [habs]; exact h1, ?_⟩
    intro htie
    rw [habs, div_eq_div_iff hdenQ.ne.symm (by norm_num)] at htie
    have hNat : r * 2 = 1 * den := by exact_mod_cast htie
    by_contra hodd
    exact hc (Or.inr ⟨by omega, by omega⟩)


/-- The double quotient is the nearest double: with `2 ^ e ≤ |a| / b < 2 ^ (e + 1)`
it is `± m * 2 ^ (e - 52)` for the integer `m` nearest to `|a| / b * 2 ^ (52 - e)`,
the even one of two; `m` has 53 bits, or is `2 ^ 53` after rounding up. -/
theorem divDouble_nearest (a : Int) (b : Nat) (ha : a ≠ 0) (hb : 0 < b) :
    ∃ (m : Nat) (e : Int),
      (2 : Rat) ^ e ≤ |(a : Rat)| / (b : Rat) ∧
      |(a : Rat)| / (b : Rat) < (2 : Rat) ^ (e + 1) ∧
      2 ^ 52 ≤ m ∧ m ≤ 2 ^ 53 ∧
      Utils.divDouble a b = (a.sign : Rat) * (m : Rat) * (2 : Rat) ^ (e - 52) ∧
      |(m : Rat) - |(a : Rat)| / (b : Rat) * (2 : Rat) ^ (52 - e)| ≤ 1 / 2 ∧
      (|(m : Rat) - |(a : Rat)| / (b : Rat) * (2 : Rat) ^ (52 - e)| = 1 / 2 → m % 2 = 0) := by
  have hn : 0 < a.natAbs := Int.natAbs_pos.2 ha
  have habs : |(a : Rat)| = ((a.natAbs : Nat) : Rat) := by
    rw [Nat.cast_natAbs, Int.cast_abs]
  rw [habs]
  unfold Utils.divDouble
  rw [if_neg ha]
  dsimp only
  generalize a.natAbs = n at hn ⊢
  obtain ⟨hla1, hla2⟩ := log2Floor_spec n n le_rfl hn
  obtain ⟨hlb1, hlb2⟩ := log2Floor_spec b b le_rfl hb
  generalize Utils.log2Floor n n = la at hla1 hla2 ⊢
  generalize Utils.log2Floor b b = lb at hlb1 hlb2 ⊢
  have hnQ : (0 : Rat) < (n : Rat) := by exact_mod_cast hn
  have hbQ : (0 : Rat) < (b : Rat) := by exact_mod_cast hb
  have h2pos : ∀ k : Nat, (0 : Rat) < (2 : Rat) ^ k := fun k => by positivity
  have hla1Q : (2 : Rat) ^ la ≤ (n : Rat) := by exact_mod_cast hla1
  have hla2Q : (n : Rat) < (2 : Rat) ^ (la + 1) := by exact_mod_cast hla2
  have hlb1Q : (2 : Rat) ^ lb ≤ (b : Rat) := by exact_mod_cast hlb1
  have hlb2Q : (b : Rat) < (2 : Rat) ^ (lb + 1) := by exact_mod_cast hlb2
  -- the exponent
  have hlo0 : (2 : Rat) ^ (((la : Int) - (lb : Int)) - 1) ≤ (n : Rat) / (b : Rat) := by
    have h : ((la : Int) - (lb : Int)) - 1 = (la : Int) - ((lb + 1 : Nat) : Int) := by
      push_cast; ring
    rw [h, zpow_sub₀ (two_ne_zero), zpow_natCast, zpow_natCast,
      div_le_div_iff₀ (h2pos _) hbQ]
    exact mul_le_mul hla1Q hlb2Q.le hbQ.le hnQ.le
  have hhi0 : (n : Rat) / (b : Rat) < (2 : Rat) ^ (((la : Int) - (lb : Int)) + 1) := by
    have h : ((la : Int) - (lb : Int)) + 1 = ((la + 1 : Nat) : Int) - (lb : Int) := by
      push_cast; ring
    rw [h, zpow_sub₀ (two_ne_zero), zpow_natCast, zpow_natCast,
      div_lt_div_iff₀ hbQ (h2pos _)]
    exact mul_lt_mul hla2Q hlb1Q (h2pos _) (h2pos _).le
  generalize ((la : Int) - (lb : Int)) = e0 at hlo0 hhi0 ⊢
  have hc : b * 2 ^ e0.toNat ≤ n * 2 ^ (-e0).toNat ↔ (2 : Rat) ^ e0 ≤ (n : Rat) / (b : Rat) := by
    rw [two_zpow_eq e0, div_le_div_iff₀ (h2pos _) hbQ]
    constructor
    · intro h
      have hQ : (b : Rat) * (2 : Rat) ^ e0.toNat ≤ (n : Rat) * (2 : Rat) ^ (-e0).toNat := by
        exact_mod_cast h
      linarith
    · intro h
      have hQ : (b : Rat) * (2 : Rat) ^ e0.toNat ≤ (n : Rat) * (2 : Rat) ^ (-e0).toNat := by
        linarith
      exact_mod_cast hQ
  have he : ∀ e : Int, e = (if b * 2 ^ e0.toNat ≤ n * 2 ^ (-e0).toNat then e0 else e0 - 1) →
      (2 : Rat) ^ e ≤ (n : Rat) / (b : Rat) ∧ (n : Rat) / (b : Rat) < (2 : Rat) ^ (e + 1) := by
    intro e hedef
    by_cases h : b * 2 ^ e0.toNat ≤ n * 2 ^ (-e0).toNat
    · rw [if_pos h] at hedef
      subst hedef
      exact ⟨hc.1 h, hhi0⟩
    · rw [if_neg h] at hedef
      subst hedef
      refine ⟨hlo0, ?_⟩
      have h1 : e0 - 1 + 1 = e0 := by ring
      rw [h1]
      exact lt_of_not_le (fun hle => h (hc.2 hle))
  generalize hedef : (if b * 2 ^ e0.toNat ≤ n * 2 ^ (-e0).toNat then e0 else e0 - 1) = e
  obtain ⟨helo, hehi⟩ := he e hedef.symm
  -- the scaled quotient
  have hscaled : ((n * 2 ^ (52 - e).toNat : Nat) : Rat) / ((b * 2 ^ (-(52 - e)).toNat : Nat) : Rat)
      = (n : Rat) / (b : Rat) * (2 : Rat) ^ (52 - e) := by
    rw [two_zpow_eq (52 - e)]
    push_cast
    field_simp
  have hdenpos : 0 < b * 2 ^ (-(52 - e)).toNat := Nat.mul_pos hb (by positivity)
  obtain ⟨hqm, hmq, hnear, htie⟩ :=
    round_half_even (n * 2 ^ (52 - e).toNat) (b * 2 ^ (-(52 - e)).toNat) hdenpos
  rw [hscaled] at hnear htie
  generalize hmdef : (if b * 2 ^ (-(52 - e)).toNat < 2 * (n * 2 ^ (52 - e).toNat % (b * 2 ^ (-(52 - e)).toNat)) ∨
      2 * (n * 2 ^ (52 - e).toNat % (b * 2 ^ (-(52 - e)).toNat)) = b * 2 ^ (-(52 - e)).toNat ∧
        n * 2 ^ (52 - e).toNat / (b * 2 ^ (-(52 - e)).toNat) % 2 = 1 then
      n * 2 ^ (52 - e).toNat / (b * 2 ^ (-(52 - e)).toNat) + 1
    else n * 2 ^ (52 - e).toNat / (b * 2 ^ (-(52 - e)).toNat)) = m at hqm hmq hnear htie ⊢
  -- the significand has 53 bits
  have hs_lo : (2 : Rat) ^ (52 : Nat) ≤ (n : Rat) / (b : Rat) * (2 : Rat) ^ (52 - e) := by
    have h : (2 : Rat) ^ (52 : Nat) = (2 : Rat) ^ e * (2 : Rat) ^ (52 - e) := by
      rw [← zpow_add₀ (two_ne_zero), ← zpow_natCast]
      congr 1
      push_cast
      ring
    rw [h]
    exact mul_le_mul_of_nonneg_right helo (zpow_pos (by norm_num) _).le
  have hs_hi : (n : Rat) / (b : Rat) * (2 : Rat) ^ (52 - e) < (2 : Rat) ^ (53 : Nat) := by
    have h : (2 : Rat) ^ (53 : Nat) = (2 : Rat) ^ (e + 1) * (2 : Rat) ^ (52 - e) := by
      rw [← zpow_add₀ (two_ne_zero), ← zpow_natCast]
      congr 1
      push_cast
      ring
    rw [h]
    exact mul_lt_mul_of_pos_right hehi (zpow_pos (by norm_num) _)
  rw [← hscaled] at hs_lo hs_hi
  have hdenQ : (0 : Rat) < ((b * 2 ^ (-(52 - e)).toNat : Nat) : Rat) := by exact_mod_cast hdenpos
  have hq_lo : 2 ^ 52 ≤ n * 2 ^ (52 - e).toNat / (b * 2 ^ (-(52 - e)).toNat) := by
    rw [Nat.le_div_iff_mul_le hdenpos]
    rw [le_div_iff₀ hdenQ] at hs_lo
    exact_mod_cast hs_lo
  have hq_hi : n * 2 ^ (52 - e).toNat / (b * 2 ^ (-(52 - e)).toNat) < 2 ^ 53 := by
    rw [Nat.div_lt_iff_lt_mul hdenpos]
    rw [div_lt_iff₀ hdenQ] at hs_hi
    exact_mod_cast hs_hi
  have hm_lo : 2 ^ 52 ≤ m := le_trans hq_lo hqm
  have hm_hi : m ≤ 2 ^ 53 := le_trans hmq hq_hi
  refine ⟨m, e, helo, hehi, hm_lo, hm_hi, ?_, hnear, htie⟩
  have hz : (2 : Rat) ^ (e - 52) = (2 : Rat) ^ (-(52 - e)).toNat / (2 : Rat) ^ (52 - e).toNat := by
    have h := two_zpow_eq (-(52 - e))
    rw [neg_neg] at h
    have h1 : e - 52 = -(52 - e) := by ring
    rw [h1, h]
  rw [Rat.mkRat_eq_div, hz]
  generalize (-(52 - e)).toNat = A
  generalize (52 - e).toNat = B
  have hB : (2 : Rat) ^ B ≠ 0 := (h2pos B).ne.symm
  push_cast
  field_simp
  ring


/-- The digits of `toFixed1` are those of the integer `⌊|x| * 10 + 1/2⌋`: the
integer `n` with `n / 10` nearest to the magnitude, the larger one of two. -/
theorem toFixed1_digits (x : Rat) :
    Utils.toFixed1 x
      = (if x < 0 then "-" else "") ++ toString (⌊|x| * 10 + 1 / 2⌋.toNat / 10) ++ "."
          ++ toString (⌊|x| * 10 + 1 / 2⌋.toNat % 10) := by
  have hden : (0 : Rat) < (x.den : Rat) := by exact_mod_cast x.den_pos
  have habs : |x| = ((x.num.natAbs : Nat) : Rat) / ((x.den : Nat) : Rat) := by
    rw [Rat.abs_def, Rat.divInt_eq_div, Int.cast_natCast, Int.cast_natCast]
  have hval : |x| * 10 + 1 / 2
      = ((20 * x.num.natAbs + x.den : Nat) : Rat) / ((2 * x.den : Nat) : Rat) := by
    rw [habs]
    push_cast
    field_simp
    ring
  have hfloor : ⌊|x| * 10 + 1 / 2⌋.toNat = (20 * x.num.natAbs + x.den) / (2 * x.den) := by
    rw [hval, Rat.floor_natCast_div_natCast]
    exact Int.toNat_ofNat _
  rw [hfloor]
  rfl

theorem foldl_rating_sum (reviews : List Review) (acc : Int) :
    reviews.foldl (fun acc comment => acc + comment.rating) acc
      = acc + (reviews.map (fun r => r.rating)).sum := by
  induction reviews generalizing acc with
  | nil => simp
  | cons r rs ih => simp [ih, add_assoc]

/-- For a non-empty list of reviews `calculateAverageRating` is the string
that `toFixed(1)` returns for the double quotient of the sum of the ratings by
their number. -/
theorem calculateAverageRating_eq (reviews : List Review) (h : reviews ≠ []) :
    Utils.calculateAverageRating reviews
      = .string (Utils.toFixed1
          (Utils.divDouble (reviews.map (fun r => r.rating)).sum reviews.length)) := by
  have hlen : reviews.length ≠ 0 := by simpa using h
  simp [Utils.calculateAverageRating, hlen, foldl_rating_sum]

/-- The quotient is taken in doubles: for thirteen ratings of 4 and seven of
5 the exact mean is 87/20, of which `toFixed(1)` would make `4.4`; the double
nearest to 87/20 lies below it, and `calculateAverageRating` returns `4.3`. -/
theorem calculateAverageRating_double_quotient :
    (sampleReviews20.map (fun r => r.rating)).sum = 87 ∧
    sampleReviews20.length = 20 ∧
    (mkRat 87 20 = 87 / 20) ∧
    Utils.divDouble 87 20 < mkRat 87 20 ∧
    Utils.toFixed1 (mkRat 87 20) = "4.4" ∧
    Utils.calculateAverageRating sampleReviews20 = .string "4.3" :=
  ⟨by decide, by decide, by rw [Rat.mkRat_eq_div]; norm_num, by decide, by decide, by decide⟩

/-- With at least one stored review the rating of `Products.getProductStats`
is a string, the one `toFixed(1)` returns for the double quotient of the sum of
the ratings by their number; the count is the number of stored reviews; and
the score is computed from the number which that string converts to. -/
theorem getProductStats_reviewed_shape (ops : NumberOps) (s : Store) (productId : Nat)
    (reviews : List Review)
    (hReviews : s.comments.lookup productId = some reviews) (hNonEmpty : reviews ≠ []) :
    (Products.getProductStats ops s productId).count = reviews.length ∧
    (Products.getProductStats ops s productId).rating
      = .string (Utils.toFixed1
          (Utils.divDouble (reviews.map (fun r => r.rating)).sum reviews.length)) ∧
    (Products.getProductStats ops s productId).score
      = ops.mul
          (ops.mul
            (ops.toNumber (Utils.toFixed1
              (Utils.divDouble (reviews.map (fun r => r.rating)).sum reviews.length)))
            (ops.log ((reviews.length : Rat) + 1)))
          2 := by
  have hlen : 0 < reviews.length := List.length_pos.2 hNonEmpty
  have hstats : Products.getProductStats ops s productId =
      { rating := Utils.calculateAverageRating reviews, count := reviews.length,
        score := ops.mul (ops.mul (ops.ofValue (Utils.calculateAverageRating reviews))
          (ops.log ((reviews.length : Rat) + 1))) 2 } := by
    simp [Products.getProductStats, hReviews, hlen]
  rw [hstats, calculateAverageRating_eq reviews hNonEmpty]
  exact ⟨rfl, rfl, rfl⟩

/-- C21. For a product with three stored reviews rated 4, 5 and 5, whose
arithmetic mean is 14/3, `Products.getProductStats` returns count 3 and as
rating not the mean, nor any number, but the string `4.7` that `toFixed(1)`
makes of it; the score is computed from the number which that string converts
to.  `Products.renderProductCard` calls `toFixed(1)` on that rating, which
throws on a string.  For a product without reviews the rating is a number, and
the same call gives its text. -/
theorem getProductStats_rating_is_text (ops : NumberOps) :
    ((sampleStoreReviewed.comments.lookup 1).getD []).map (fun r => r.rating) = [4, 5, 5] ∧
    (Products.getProductStats ops sampleStoreReviewed 1).count = 3 ∧
    (Products.getProductStats ops sampleStoreReviewed 1).rating = .string "4.7" ∧
    (Products.getProductStats ops sampleStoreReviewed 1).rating ≠ .number (14 / 3) ∧
    (Products.getProductStats ops sampleStoreReviewed 1).score
      = ops.mul (ops.mul (ops.toNumber "4.7") (ops.log 4)) 2 ∧
    Products.renderProductCardRating ops sampleStoreReviewed sampleProduct
      = .error "TypeError: avgRating.toFixed is not a function" ∧
    (sampleStore.comments.lookup 1).getD [] = [] ∧
    (Products.getProductStats ops sampleStore 1).rating = .number 0 ∧
    Products.renderProductCardRating ops sampleStore sampleProduct = .ok "0.0" := by
  have hshape := getProductStats_reviewed_shape ops sampleStoreReviewed 1 sampleReviews
    (by decide) (by decide)
  have htext : Utils.toFixed1
      (Utils.divDouble (sampleReviews.map (fun r => r.rating)).sum sampleReviews.length)
      = "4.7" := by decide
  rw [htext] at hshape
  obtain ⟨hcount, hrating, hscore⟩ := hshape
  have hlog : ((sampleReviews.length : Nat) : Rat) + 1 = 4 := by
    norm_num [sampleReviews]
  rw [hlog] at hscore
  have hcard : Products.renderProductCardRating ops sampleStoreReviewed sampleProduct
      = .error "TypeError: avgRating.toFixed is not a function" := by
    have hid : sampleProduct.id = 1 := rfl
    simp only [Products.renderProductCardRating, hid, hrating]
  have hnone : (Products.getProductStats ops sampleStore 1).rating = .number 0 := rfl
  have hcard0 : Products.renderProductCardRating ops sampleStore sampleProduct = .ok "0.0" := by
    have hid : sampleProduct.id = 1 := rfl
    have h0 : Utils.toFixed1 0 = "0.0" := by decide
    simp only [Products.renderProductCardRating, hid, hnone, h0]
  refine ⟨by decide, hcount, hrating, ?_, hscore, hcard, by decide, hnone, hcard0⟩
  rw [hrating]
  exact fun h => JsValue.noConfusion h

/-! ## Search -/

theorem dropWhile_all {α : Type} (p : α → Bool) (l : List α) :
    (∀ x ∈ l.dropWhile p, p x = true) ↔ ∀ x ∈ l, p x = true := by
  induction l with
  | nil => simp
  | cons a as ih =>
    by_cases ha : p a = true
    · simp [List.dropWhile_cons, ha, ih]
    · simp only [List.dropWhile_cons, ha, Bool.false_eq_true, if_false]

/-- `query.trim() === ''` holds exactly when every character of the query is
white space. -/
theorem jsTrim_eq_empty_iff (query : String) :
    Utils.jsTrim query = "" ↔ query.toList.all Utils.isJsSpace = true := by
  unfold Utils.jsTrim
  rw [String.ext_iff]
  show ((query.toList.dropWhile Utils.isJsSpace).reverse.dropWhile Utils.isJsSpace).reverse = []
    ↔ _
  rw [List.reverse_eq_nil_iff, List.dropWhile_eq_nil_iff]
  simp only [List.mem_reverse, List.all_eq_true]
  exact dropWhile_all Utils.isJsSpace query.toList

/-- The test `Search.search` applies to a product: the guards on empty fields
do not change which products match. -/
theorem search_match (toLowerCase : String → String) (query : String) (p : Product)
    (hLowerEmpty : toLowerCase "" = "") :
    (if Utils.jsIncludes (toLowerCase p.title) (toLowerCase query) then true
      else if p.brand != "" &&
          Utils.jsIncludes (toLowerCase p.brand) (toLowerCase query) then true
      else if p.category != "" &&
          Utils.jsIncludes (toLowerCase p.category) (toLowerCase query) then true
      else if p.description != "" &&
          Utils.jsIncludes (toLowerCase p.description) (toLowerCase query) then true
      else false)
    = decide (
        (toLowerCase query).toList <:+: (toLowerCase p.title).toList ∨
        (toLowerCase query).toList <:+: (toLowerCase p.brand).toList ∨
        (toLowerCase query).toList <:+: (toLowerCase p.category).toList ∨
        (toLowerCase query).toList <:+: (toLowerCase p.description).toList) := by
  have hfield : ∀ f : String, f = "" →
      (toLowerCase query).toList <:+: (toLowerCase f).toList →
      (toLowerCase query).toList <:+: (toLowerCase p.title).toList := by
    intro f hf hin
    rw [hf, hLowerEmpty] at hin
    have hnil : (toLowerCase query).toList = [] := List.eq_nil_of_infix_nil hin
    rw [hnil]
    exact List.nil_infix
  have hb := hfield p.brand
  have hc := hfield p.category
  have hd := hfield p.description
  unfold Utils.jsIncludes
  by_cases hT : (toLowerCase query).toList <:+: (toLowerCase p.title).toList <;>
    by_cases hB : (toLowerCase query).toList <:+: (toLowerCase p.brand).toList <;>
    by_cases hC : (toLowerCase query).toList <:+: (toLowerCase p.category).toList <;>
    by_cases hD : (toLowerCase query).toList <:+: (toLowerCase p.description).toList <;>
    by_cases hb0 : p.brand = "" <;> by_cases hc0 : p.category = "" <;>
    by_cases hd0 : p.description = "" <;> simp_all

/-- C22. For a query that is not empty or all white space, `Search.search`
returns exactly the catalog products, in catalog order, for which the
lower-cased query is a substring of the lower-cased title, brand, category or
description; for an empty or all-white-space query it returns the empty list.
(`toLowerCase` is any function that maps the empty string to itself.) -/
theorem search_spec (toLowerCase : String → String) (s : Store) (query : String)
    (hLowerEmpty : toLowerCase "" = "") :
    (query.toList.all Utils.isJsSpace = false →
      Search.search toLowerCase s query =
        s.products.filter (fun p => decide (
          (toLowerCase query).toList <:+: (toLowerCase p.title).toList ∨
          (toLowerCase query).toList <:+: (toLowerCase p.brand).toList ∨
          (toLowerCase query).toList <:+: (toLowerCase p.category).toList ∨
          (toLowerCase query).toList <:+: (toLowerCase p.description).toList))) ∧
    (query.toList.all Utils.isJsSpace = true → Search.search toLowerCase s query = []) := by
  constructor
  · intro hNonBlank
    have hTrim : ¬ Utils.jsTrim query = "" := by
      rw [jsTrim_eq_empty_iff, hNonBlank]
      simp
    have hNe : ¬ query = "" := by
      intro h
      subst h
      exact absurd hNonBlank (by decide)
    simp only [Search.search, hNe, hTrim, or_self, if_false, Products.getProducts]
    apply List.filter_congr
    intro p _
    exact search_match toLowerCase query p hLowerEmpty
  · intro hBlank
    have hTrim : Utils.jsTrim query = "" := (jsTrim_eq_empty_iff query).2 hBlank
    simp [Search.search, hTrim]

/-- The query `log` finds the keyboard, whose only match is its brand Logitech;
a query of two blanks finds nothing. -/
theorem search_spec_witness :
    Utils.jsIncludes (asciiToLowerCase sampleKeyboard.title) "log" = false ∧
    Utils.jsIncludes (asciiToLowerCase sampleKeyboard.category) "log" = false ∧
    Utils.jsIncludes (asciiToLowerCase sampleKeyboard.description) "log" = false ∧
    Search.search asciiToLowerCase sampleStoreCatalog "log" = [sampleKeyboard] ∧
    Search.search asciiToLowerCase sampleStoreCatalog "  " = [] := by
  have h1 := (search_spec asciiToLowerCase sampleStoreCatalog "log" (by decide)).1 (by decide)
  have h2 := (search_spec asciiToLowerCase sampleStoreCatalog "  " (by decide)).2 (by decide)
  refine ⟨by decide, by decide, by decide, ?_, h2⟩
  rw [h1]
  decide


/-! ## Product filter -/

/-- C23. `Products.filterProducts` returns exactly the catalog products, in
catalog order, that satisfy every criterion present: category equal to
`criteria.category`, brand equal to `criteria.brand`, tags containing
`criteria.tag`, each by exact equality; with no criterion present it returns
the whole catalog. -/
theorem filterProducts_spec (s : Store) (criteria : Products.FilterCriteria) :
    (∀ p, p ∈ Products.filterProducts s criteria ↔
      p ∈ s.products ∧
      (∀ category, criteria.category = some category → p.category = category) ∧
      (∀ brand, criteria.brand = some brand → p.brand = brand) ∧
      (∀ tag, criteria.tag = some tag → tag ∈ p.tags)) ∧
    (Products.filterProducts s criteria).Sublist s.products ∧
    (criteria.category = none → criteria.brand = none → criteria.tag = none →
      Products.filterProducts s criteria = s.products) := by
  refine ⟨?_, List.filter_sublist _, ?_⟩
  · intro p
    simp only [Products.filterProducts, Products.getProducts, List.mem_filter,
      Bool.and_eq_true]
    cases criteria.category <;> cases criteria.brand <;> cases criteria.tag <;>
      simp [and_assoc]
  · intro h1 h2 h3
    simp [Products.filterProducts, Products.getProducts, h1, h2, h3]

/-- On the sample catalog the category `Electronics` selects the mouse and the
keyboard, and its proper substring `Electro` selects nothing. -/
theorem filterProducts_spec_witness :
    (Products.filterProducts sampleStoreCatalog ⟨some "Electronics", none, none, none⟩).map
      (fun p => p.title) = ["Mouse", "Keyboard"] ∧
    Products.filterProducts sampleStoreCatalog ⟨some "Electro", none, none, none⟩ = [] ∧
    Products.filterProducts sampleStoreCatalog ⟨none, none, none, none⟩
      = sampleStoreCatalog.products :=
  ⟨by decide, by decide,
   (filterProducts_spec sampleStoreCatalog ⟨none, none, none, none⟩).2.2 rfl rfl rfl⟩

/-! ## The storage helper -/

/-- C24. For every key, value and default: when the write does not fail,
`Storage.set` returns `true` and a following `Storage.get` returns the value
that was set, not the default, whatever the value is, the falsy ones included.
The hypotheses state what `JSON` does with the value: its text is not empty
and parses back to it. -/
theorem storage_round_trip {V : Type} (json : Json V) (localStorage : LocalStorage)
    (key : String) (value defaultValue : V)
    (hParse : json.parse (json.stringify value) = some value)
    (hText : json.stringify value ≠ "") :
    (Utils.Storage.set json true localStorage key value).1 = true ∧
    Utils.Storage.get json (Utils.Storage.set json true localStorage key value).2 key
      defaultValue = value := by
  simp [Utils.Storage.set, Utils.Storage.get, jsGet_jsSet_self, hParse, hText]

/-- Each of the four falsy values `null`, `false`, `0` and the empty string is
read back as itself, not as the default. -/
theorem storage_round_trip_witness :
    Utils.Storage.get falsyJson
      (Utils.Storage.set falsyJson true [] "k" FalsyValue.null).2 "k" FalsyValue.zero
      = FalsyValue.null ∧
    Utils.Storage.get falsyJson
      (Utils.Storage.set falsyJson true [] "k" FalsyValue.false).2 "k" FalsyValue.null
      = FalsyValue.false ∧
    Utils.Storage.get falsyJson
      (Utils.Storage.set falsyJson true [] "k" FalsyValue.zero).2 "k" FalsyValue.null
      = FalsyValue.zero ∧
    Utils.Storage.get falsyJson
      (Utils.Storage.set falsyJson true [] "k" FalsyValue.emptyString).2 "k" FalsyValue.null
      = FalsyValue.emptyString :=
  ⟨(storage_round_trip falsyJson [] "k" FalsyValue.null FalsyValue.zero
      (by decide) (by decide)).2,
   (storage_round_trip falsyJson [] "k" FalsyValue.false FalsyValue.null
      (by decide) (by decide)).2,
   (storage_round_trip falsyJson [] "k" FalsyValue.zero FalsyValue.null
      (by decide) (by decide)).2,
   (storage_round_trip falsyJson [] "k" FalsyValue.emptyString FalsyValue.null
      (by decide) (by decide)).2⟩

/-- C25. `Storage.get` returns the default itself when nothing is stored under
the key and when the stored text is not valid JSON (it always returns a value:
the exception of the parser is caught); `Storage.set` returns `false`, and
stores nothing, when the underlying write fails. -/
theorem storage_failures {V : Type} (json : Json V) (localStorage : LocalStorage)
    (key : String) (value defaultValue : V) :
    (jsGet localStorage key = none →
      Utils.Storage.get json localStorage key defaultValue = defaultValue) ∧
    (∀ text, jsGet localStorage key = some text → json.parse text = none →
      Utils.Storage.get json localStorage key defaultValue = defaultValue) ∧
    Utils.Storage.set json false localStorage key value = (false, localStorage) := by
  refine ⟨?_, ?_, ?_⟩
  · intro h
    simp [Utils.Storage.get, h]
  · intro text h hp
    simp [Utils.Storage.get, h, hp]
  · simp [Utils.Storage.set]

/-- A missing key and a stored text that is not JSON both give the default. -/
theorem storage_failures_witness :
    Utils.Storage.get falsyJson [("users", "not json")] "cart" FalsyValue.zero
      = FalsyValue.zero ∧
    Utils.Storage.get falsyJson [("users", "not json")] "users" FalsyValue.zero
      = FalsyValue.zero :=
  ⟨(storage_failures falsyJson [("users", "not json")] "cart" FalsyValue.null
      FalsyValue.zero).1 (by decide),
   (storage_failures falsyJson [("users", "not json")] "users" FalsyValue.null
      FalsyValue.zero).2.1 "not json" (by decide) (by decide)⟩

/-! ## Denied navigation -/

/-- The route `/product`, which `/product/<id>` is rewritten to, is never
denied. -/
theorem canAccessRoute_product (s : Store) : Auth.canAccessRoute "/product" s = true := by
  simp [Auth.canAccessRoute]

/-- C26. For a route that `Auth.canAccessRoute` denies for the current session
(after `/product/<id>` has been rewritten to `/product`) and for both values
of `updateHash`, `App.navigate` invokes no route handler, does not change
`App.currentRoute` and does not write the location hash; it shows the login
modal. -/
theorem navigate_denied (route : String) (updateHash : Bool) (s : Store) (app : AppState)
    (hDenied : Auth.canAccessRoute (App.actualRoute route) s = false) :
    (App.navigate route updateHash s app).handlerCalls = app.handlerCalls ∧
    (App.navigate route updateHash s app).currentRoute = app.currentRoute ∧
    (App.navigate route updateHash s app).locationHash = app.locationHash ∧
    (App.navigate route updateHash s app).loginModalShown = true := by
  unfold App.navigate
  simp only [hDenied, Bool.not_false, if_true]
  split_ifs <;> simp

/-- With nobody logged in, navigating to `/cart` is denied for both values of
`updateHash`: only the login modal changes. -/
theorem navigate_denied_witness :
    App.navigate "/cart" true sampleStoreLoggedOut sampleApp
      = { sampleApp with loginModalShown := true } ∧
    App.navigate "/cart" false sampleStoreLoggedOut sampleApp
      = { sampleApp with loginModalShown := true } ∧
    (App.navigate "/cart" true sampleStoreLoggedOut sampleApp).handlerCalls = [] ∧
    (App.navigate "/cart" false sampleStoreLoggedOut sampleApp).currentRoute = "/" :=
  ⟨by decide, by decide,
   (navigate_denied "/cart" true sampleStoreLoggedOut sampleApp (by decide)).1,
   (navigate_denied "/cart" false sampleStoreLoggedOut sampleApp (by decide)).2.1⟩


/-! ## The legacy login -/

/-- Every successful login of the legacy module stores the password it was
called with under `currentUser`. -/
theorem legacy_login_stores_password (toLowerCase : String → String)
    (email password : String) (s : Store)
    (h : (Legacy.login toLowerCase email password s).1.success = true) :
    ∃ session, (Legacy.login toLowerCase email password s).2.currentUser = some session ∧
      jsGet session "password" = some password := by
  unfold Legacy.login at h ⊢
  dsimp only at h ⊢
  by_cases hBlank : email = "" ∨ password = ""
  · simp [hBlank] at h
  · simp only [hBlank, if_false] at h ⊢
    cases hf : s.users.find? (fun u => decide (u.email = toLowerCase email)) with
    | none => simp [hf] at h
    | some user =>
      simp only [hf] at h ⊢
      by_cases hpw : user.password = password
      · simp only [hpw, ne_eq, not_true_eq_false, if_false]
        split_ifs
        · exact ⟨_, rfl, by simp [Legacy.spreadUser, jsSet, jsGet, hpw]⟩
        · exact ⟨_, rfl, by simp [Legacy.spreadUser, jsGet, hpw]⟩
      · simp [hpw] at h

/-- C27 (failing input). With Ann's record in the users collection, the legacy
`login` with her e-mail and password succeeds and the value stored under
`currentUser` has the field `password` with her password. -/
theorem legacy_login_keeps_password :
    (Legacy.login asciiToLowerCase "ann@example.com" "secret1" sampleStoreLoggedOut).1.success
      = true ∧
    (Legacy.login asciiToLowerCase "ann@example.com" "secret1"
      sampleStoreLoggedOut).2.currentUser
      = some [("id", "user_1"), ("email", "ann@example.com"), ("password", "secret1"),
              ("name", "Ann"), ("role", "user"),
              ("createdAt", "2024-01-01T00:00:00.000Z")] ∧
    ((Legacy.login asciiToLowerCase "ann@example.com" "secret1"
      sampleStoreLoggedOut).2.currentUser.bind (fun session => jsGet session "password"))
      = some "secret1" := by
  decide

/-! ## Admin sessions -/

theorem allRoleUser_iff (s : Store) :
    allRoleUser s = true ↔ ∀ u ∈ s.users, u.role = "user" := by
  simp [allRoleUser, List.all_eq_true]

/-- What `login` does with credentials other than the admin pair when every
stored record has role `user`: if it returns `true`, the session it stores has
role `user`; if it returns `false`, the storage is unchanged. -/
theorem login_other_credentials (email password : String) (s : Store)
    (hUsers : allRoleUser s = true)
    (hNotAdmin : ¬ (email = "admin@gmail.com" ∧ password = "Admin@123")) :
    (Auth.login email password s).store.users = s.users ∧
    ((Auth.login email password s).ret = false → (Auth.login email password s).store = s) ∧
    ((Auth.login email password s).ret = true →
      ∃ session, (Auth.login email password s).store.currentUser = some session ∧
        jsGet session "role" = some "user") := by
  by_cases hBlank : email = "" ∨ password = ""
  · have hcall : Auth.login email password s =
        ⟨false, some ⟨"Email and password are required", "error"⟩, s⟩ := by
      simp [Auth.login, hBlank]
    rw [hcall]
    simp
  · have hE : email ≠ "" := fun h => hBlank (Or.inl h)
    have hP : password ≠ "" := fun h => hBlank (Or.inr h)
    rw [login_regular email password s hE hP hNotAdmin]
    cases hf : s.users.find? (fun u => decide (u.email = email)) with
    | none => simp
    | some user =>
      have hrole : user.role = "user" :=
        (allRoleUser_iff s).1 hUsers user (List.mem_of_find?_eq_some hf)
      by_cases hpw : user.password = password
      · simp [hpw, Auth.setCurrentUser, jsGet, hrole]
      · simp [hpw]

/-- One call of `register`, or of `login` with credentials other than the
admin pair, keeps every record at role `user` and does not make the session
an admin session. -/
theorem authCall_keeps_non_admin (call : AuthCall) (s : Store)
    (hUsers : allRoleUser s = true) (hSession : Auth.isAdmin s = false)
    (hCall : call.usesAdminPair = false) :
    allRoleUser (call.run s) = true ∧ Auth.isAdmin (call.run s) = false := by
  cases call with
  | register newId createdAt name email password =>
    simp only [AuthCall.run]
    by_cases hret : (Auth.register newId createdAt name email password s).ret = true
    · rw [(register_ret_true newId createdAt name email password s hret).2]
      constructor
      · rw [allRoleUser_iff]
        intro u hu
        simp only [List.mem_append, List.mem_singleton] at hu
        rcases hu with h | h
        · exact (allRoleUser_iff s).1 hUsers u h
        · rw [h]
      · simp [Auth.isAdmin, Auth.getCurrentUser, jsGet]
    · rw [register_ret_false newId createdAt name email password s (by simpa using hret)]
      exact ⟨hUsers, hSession⟩
  | login email password =>
    simp only [AuthCall.run]
    have hNotAdmin : ¬ (email = "admin@gmail.com" ∧ password = "Admin@123") := by
      simpa [AuthCall.usesAdminPair] using hCall
    obtain ⟨h1, h2, h3⟩ := login_other_credentials email password s hUsers hNotAdmin
    constructor
    · rw [allRoleUser_iff, h1]
      exact (allRoleUser_iff s).1 hUsers
    · by_cases hret : (Auth.login email password s).ret = true
      · obtain ⟨session, hs, hr⟩ := h3 hret
        simp [Auth.isAdmin, Auth.getCurrentUser, hs, hr]
      · rw [h2 (by simpa using hret)]
        exact hSession

/-- C28. If every record of the users collection has role `user` (which
`Auth.register` preserves), then `Auth.login` succeeds and stores a session
with role `admin` if and only if it is called with the hardcoded admin pair;
and from a state whose session is not an admin session, no sequence of
`Auth.register` and `Auth.login` calls with other credentials makes
`Auth.isAdmin` truthy. -/
theorem admin_only_by_admin_pair (newId createdAt name email password : String)
    (calls : List AuthCall) (s : Store) (hUsers : allRoleUser s = true) :
    allRoleUser (Auth.register newId createdAt name email password s).store = true ∧
    (((Auth.login email password s).ret = true ∧
        ∃ session, (Auth.login email password s).store.currentUser = some session ∧
          jsGet session "role" = some "admin") ↔
      email = "admin@gmail.com" ∧ password = "Admin@123") ∧
    (Auth.isAdmin s = false → (∀ call ∈ calls, call.usesAdminPair = false) →
      Auth.isAdmin (runCalls calls s) = false) := by
  refine ⟨?_, ?_, ?_⟩
  · by_cases hret : (Auth.register newId createdAt name email password s).ret = true
    · rw [(register_ret_true newId createdAt name email password s hret).2, allRoleUser_iff]
      intro u hu
      simp only [List.mem_append, List.mem_singleton] at hu
      rcases hu with h | h
      · exact (allRoleUser_iff s).1 hUsers u h
      · rw [h]
    · rw [register_ret_false newId createdAt name email password s (by simpa using hret)]
      exact hUsers
  · constructor
    · rintro ⟨hret, session, hs, hr⟩
      by_contra hNotAdmin
      obtain ⟨session1, hs1, hr1⟩ :=
        (login_other_credentials email password s hUsers hNotAdmin).2.2 hret
      rw [hs] at hs1
      cases hs1
      rw [hr] at hr1
      exact absurd hr1 (by decide)
    · rintro ⟨rfl, rfl⟩
      refine ⟨by simp [Auth.login, Auth.ADMIN_EMAIL, Auth.ADMIN_PASSWORD], ?_⟩
      refine ⟨[("id", "admin"), ("email", "admin@gmail.com"), ("name", "Administrator"),
        ("role", "admin")], ?_, by decide⟩
      simp [Auth.login, Auth.ADMIN_EMAIL, Auth.ADMIN_PASSWORD, Auth.setCurrentUser]
  · intro hSession hCalls
    have key : ∀ (l : List AuthCall) (st : Store), allRoleUser st = true →
        Auth.isAdmin st = false → (∀ call ∈ l, call.usesAdminPair = false) →
        Auth.isAdmin (runCalls l st) = false := by
      intro l
      induction l with
      | nil =>
        intro st _ h _
        exact h
      | cons call rest ih =>
        intro st h1 h2 h3
        obtain ⟨h4, h5⟩ := authCall_keeps_non_admin call st h1 h2
          (h3 call (List.mem_cons_self _ _))
        exact ih (call.run st) h4 h5 (fun c hc => h3 c (List.mem_cons_of_mem _ hc))
    exact key calls s hUsers hSession hCalls

/-- On `sampleStore`, whose only record has role `user`: logging in as Ann,
registering Bob and trying the admin e-mail with a wrong password leave the
session a non-admin one, while the admin pair gives an admin session. -/
theorem admin_only_by_admin_pair_witness :
    Auth.isAdmin (runCalls
      [AuthCall.login "ann@example.com" "secret1",
       AuthCall.register "user_2" "t2" "Bob" "bob@example.com" "secret2",
       AuthCall.login "admin@gmail.com" "admin"] sampleStore) = false ∧
    Auth.isAdmin (Auth.login "admin@gmail.com" "Admin@123" sampleStore).store = true :=
  ⟨(admin_only_by_admin_pair "user_2" "t2" "Bob" "bob@example.com" "secret2"
      [AuthCall.login "ann@example.com" "secret1",
       AuthCall.register "user_2" "t2" "Bob" "bob@example.com" "secret2",
       AuthCall.login "admin@gmail.com" "admin"] sampleStore (by decide)).2.2
      (by decide) (by decide),
   by decide⟩


/-! ## The winter-sale flag -/

theorem orderLines_congr (s1 s2 : Store) (items : List CartLine)
    (h : s1.products = s2.products) :
    Orders.orderLines s1 items = Orders.orderLines s2 items := by
  induction items with
  | nil => rfl
  | cons x xs ih => simp [Orders.orderLines, Products.getProductById, h, ih]

/-- The total and the entries of an order that `createOrder` returns. -/
theorem createOrder_created_fields (orderId estimatedDelivery createdAt : String)
    (orderData : OrderData) (s : Store) (order : Order)
    (h : (Orders.createOrder orderId estimatedDelivery createdAt orderData s).ret
      = OrderResult.created order) :
    order.totalAmount = Cart.calculateTotal s ∧
    Orders.orderLines s (Cart.getUserCart s) = some order.products := by
  unfold Orders.createOrder at h
  cases hu : Auth.getCurrentUser s with
  | none => simp [hu] at h
  | some user =>
    simp only [hu] at h
    by_cases hc : (Cart.getUserCart s).length = 0
    · simp [hc] at h
    · simp only [hc, if_false] at h
      cases hl : Orders.orderLines s (Cart.getUserCart s) with
      | none => simp [hl] at h
      | some lines =>
        simp only [hl, OrderResult.created.injEq] at h
        subst h
        exact ⟨rfl, rfl⟩

/-- C29. The amount charged does not depend on the winter-sale flag: for two
stores that differ only in `winterSaleActive`, `Cart.calculateTotal` returns
the same total and `Orders.createOrder` returns the same order, whose line
prices are the catalog prices and whose `totalAmount` is the sum of catalog
price times quantity; yet `Products.renderProductPrice` shows 0.8 times the
price, after the price itself, when the flag is set. -/
theorem charge_ignores_winter_sale (orderId estimatedDelivery createdAt : String)
    (orderData : OrderData) (s : Store) (flag : Bool) (product : Product) :
    Cart.calculateTotal { s with winterSaleActive := flag } = Cart.calculateTotal s ∧
    (Orders.createOrder orderId estimatedDelivery createdAt orderData
        { s with winterSaleActive := flag }).ret
      = (Orders.createOrder orderId estimatedDelivery createdAt orderData s).ret ∧
    (∀ order, (Orders.createOrder orderId estimatedDelivery createdAt orderData s).ret
        = OrderResult.created order →
      order.totalAmount = ((Cart.getUserCart s).map (Cart.lineAmount s)).sum ∧
      List.Forall₂
        (fun item entry =>
          ∃ catalogProduct, Products.getProductById s item.productId = some catalogProduct ∧
            entry.price = catalogProduct.price)
        (Cart.getUserCart s) order.products) ∧
    Products.renderProductPrice { s with winterSaleActive := true } product
      = [product.price, product.price * 0.8] ∧
    Products.renderProductPrice { s with winterSaleActive := false } product
      = [product.price] := by
  refine ⟨rfl, ?_, ?_, rfl, rfl⟩
  · have hlines : Orders.orderLines { s with winterSaleActive := flag } (Cart.getUserCart s)
        = Orders.orderLines s (Cart.getUserCart s) := orderLines_congr _ _ _ rfl
    have htotal : Cart.calculateTotal { s with winterSaleActive := flag }
        = Cart.calculateTotal s := rfl
    have hcart : Cart.getUserCart { s with winterSaleActive := flag } = Cart.getUserCart s := rfl
    unfold Orders.createOrder
    cases hu : Auth.getCurrentUser s with
    | none =>
      have hu1 : Auth.getCurrentUser { s with winterSaleActive := flag } = none := hu
      simp [hu1]
    | some user =>
      have hu1 : Auth.getCurrentUser { s with winterSaleActive := flag } = some user := hu
      simp only [hu1, hcart, hlines, htotal]
      by_cases hc : (Cart.getUserCart s).length = 0
      · simp [hc]
      · simp only [hc, if_false]
        cases hl : Orders.orderLines s (Cart.getUserCart s) with
        | none => rfl
        | some lines => rfl
  · intro order ho
    obtain ⟨h1, h2⟩ := createOrder_created_fields _ _ _ _ _ _ ho
    refine ⟨h1.trans (calculateTotal_eq_sum s), ?_⟩
    refine (orderLines_forall₂ s _ _ h2).imp ?_
    rintro item entry ⟨_, _, catalogProduct, hp, _, _, hprice⟩
    exact ⟨catalogProduct, hp, hprice⟩

/-! ## Other users' carts and wishlists -/

theorem jsGet_jsSet_other {β : Type} (o : List (String × β)) (k other : String) (v : β)
    (h : other ≠ k) : jsGet (jsSet o k v) other = jsGet o other := by
  induction o with
  | nil =>
    have hk : ¬ k = other := fun e => h e.symm
    simp [jsSet, jsGet, hk]
  | cons kv rest ih =>
    obtain ⟨k1, v1⟩ := kv
    by_cases hk : k1 = k
    · subst hk
      have hk1 : ¬ k1 = other := fun e => h e.symm
      simp [jsSet, jsGet, hk1]
    · by_cases ho : k1 = other
      · subst ho
        simp [jsSet, jsGet, hk]
      · simp [jsSet, jsGet, hk, ho, ih]

/-- Saving the cart of the logged-in user leaves the cart entry of every other
key and the whole wishlist mapping unchanged. -/
theorem saveUserCart_frame (items : List CartLine) (s : Store) (user : JObj) (other : String)
    (hUser : Auth.getCurrentUser s = some user) (hOther : other ≠ jsKey (jsGet user "id")) :
    jsGet (Cart.saveUserCart items s).store.cart other = jsGet s.cart other ∧
    (Cart.saveUserCart items s).store.wishlist = s.wishlist := by
  simp [Cart.saveUserCart, hUser, jsGet_jsSet_other _ _ _ _ hOther]

/-- Saving the wishlist of the logged-in user leaves the wishlist entry of
every other key and the whole cart mapping unchanged. -/
theorem saveUserWishlist_frame (items : List Nat) (s : Store) (user : JObj) (other : String)
    (hUser : Auth.getCurrentUser s = some user) (hOther : other ≠ jsKey (jsGet user "id")) :
    jsGet (Wishlist.saveUserWishlist items s).store.wishlist other = jsGet s.wishlist other ∧
    (Wishlist.saveUserWishlist items s).store.cart = s.cart := by
  simp [Wishlist.saveUserWishlist, hUser, jsGet_jsSet_other _ _ _ _ hOther]

/-- C30. Every cart and wishlist mutator run while a user is logged in leaves
the cart entry and the wishlist entry of every other user id unchanged: a cart
mutator leaves the other cart entries and the whole wishlist mapping as they
were, a wishlist mutator the other wishlist entries and the whole cart
mapping. -/
theorem mutators_frame (productId : Nat) (quantity : Int) (s : Store) (user : JObj)
    (other : String) (hUser : Auth.getCurrentUser s = some user)
    (hOther : other ≠ jsKey (jsGet user "id")) :
    (jsGet (Cart.addItem productId quantity s).store.cart other = jsGet s.cart other ∧
      (Cart.addItem productId quantity s).store.wishlist = s.wishlist) ∧
    (jsGet (Cart.removeItem productId s).store.cart other = jsGet s.cart other ∧
      (Cart.removeItem productId s).store.wishlist = s.wishlist) ∧
    (jsGet (Cart.updateQuantity productId quantity s).store.cart other = jsGet s.cart other ∧
      (Cart.updateQuantity productId quantity s).store.wishlist = s.wishlist) ∧
    (jsGet (Cart.clearCart s).store.cart other = jsGet s.cart other ∧
      (Cart.clearCart s).store.wishlist = s.wishlist) ∧
    (jsGet (Wishlist.add productId s).store.wishlist other = jsGet s.wishlist other ∧
      (Wishlist.add productId s).store.cart = s.cart) ∧
    (jsGet (Wishlist.remove productId s).store.wishlist other = jsGet s.wishlist other ∧
      (Wishlist.remove productId s).store.cart = s.cart) ∧
    (jsGet (Wishlist.toggle productId s).store.wishlist other = jsGet s.wishlist other ∧
      (Wishlist.toggle productId s).store.cart = s.cart) := by
  have hC := fun items => saveUserCart_frame items s user other hUser hOther
  have hW := fun items => saveUserWishlist_frame items s user other hUser hOther
  have hRemove : jsGet (Cart.removeItem productId s).store.cart other = jsGet s.cart other ∧
      (Cart.removeItem productId s).store.wishlist = s.wishlist := by
    simp only [Cart.removeItem]
    exact hC _
  have hWAdd : jsGet (Wishlist.add productId s).store.wishlist other = jsGet s.wishlist other ∧
      (Wishlist.add productId s).store.cart = s.cart := by
    unfold Wishlist.add
    dsimp only
    split_ifs
    · exact ⟨rfl, rfl⟩
    · exact hW _
    · exact ⟨rfl, rfl⟩
  have hWRemove : jsGet (Wishlist.remove productId s).store.wishlist other
        = jsGet s.wishlist other ∧
      (Wishlist.remove productId s).store.cart = s.cart := by
    simp only [Wishlist.remove]
    exact hW _
  refine ⟨?_, hRemove, ?_, ?_, hWAdd, hWRemove, ?_⟩
  · unfold Cart.addItem
    split_ifs
    · exact ⟨rfl, rfl⟩
    · cases hp : Products.getProductById s productId with
      | none => exact ⟨rfl, rfl⟩
      | some product => exact hC _
  · unfold Cart.updateQuantity
    dsimp only
    split_ifs
    · exact hRemove
    · cases hf : (Cart.getUserCart s).find? (fun item => item.productId == productId) with
      | none => exact ⟨rfl, rfl⟩
      | some found => exact hC _
  · simp only [Cart.clearCart]
    exact hC _
  · unfold Wishlist.toggle
    dsimp only
    split_ifs
    · exact ⟨rfl, rfl⟩
    · exact hWRemove
    · exact hWAdd

/-- While Ann is logged in, adding to her cart and toggling her wishlist leave
the entries of `user_9` as they were. -/
theorem mutators_frame_witness :
    jsGet (Cart.addItem 1 2 { sampleStore with cart := [("user_9", [⟨1, 4⟩])] }).store.cart
      "user_9" = some [⟨1, 4⟩] ∧
    jsGet (Wishlist.toggle 1 { sampleStore with wishlist := [("user_9", [3])] }).store.wishlist
      "user_9" = some [3] :=
  ⟨(mutators_frame 1 2 { sampleStore with cart := [("user_9", [⟨1, 4⟩])] }
      [("id", "user_1"), ("email", "ann@example.com"), ("name", "Ann"), ("role", "user")]
      "user_9" rfl (by decide)).1.1,
   (mutators_frame 1 2 { sampleStore with wishlist := [("user_9", [3])] }
      [("id", "user_1"), ("email", "ann@example.com"), ("name", "Ann"), ("role", "user")]
      "user_9" rfl (by decide)).2.2.2.2.2.2.1⟩

end Ecommerce
